import Mathlib

set_option maxHeartbeats 1000000

namespace AgentBooking

/-
Verification development for the agent_booking repository.

Shallow embedding conventions used throughout this file:
* timestamps are modelled as integers (minutes for the scheduler, seconds for
  the OTP ledger); Python datetime comparisons and timedelta arithmetic map to
  integer comparisons and addition;
* Python dictionaries keyed by strings are modelled as functions
  String -> Option _;
* external collaborators (Google free/busy backend, Azure email dispatch, the
  LLM proposer, the network) appear as explicit inputs/oracles;
* sha256 is modelled as an opaque parameter hashFn : String -> String, since
  the code only ever compares hash values for equality.
-/

-- =========================================================================
-- Part 1: Interval Scheduler
-- (src/MCP_Calendar/calendar_api_server.py, find_free_slot)
-- =========================================================================

/-- Free-gap accumulation loop of find_free_slot: walking the busy list with a
cursor that starts at the window start, emit the gap (cursor, bs) whenever a
busy interval (bs, be) starts strictly after the cursor, advance the cursor to
be whenever be is strictly past it, and finally emit the trailing gap
(cursor, windowEnd) when the cursor is still strictly before the window end.
Mirrors the `for b in busy` loop plus the trailing `if cursor < end` append. -/
def freeBlocks (endW : Int) : Int → List (Int × Int) → List (Int × Int)
  | cursor, [] => if cursor < endW then [(cursor, endW)] else []
  | cursor, (bs, be) :: rest =>
      (if bs > cursor then [(cursor, bs)] else []) ++
        freeBlocks endW (if be > cursor then be else cursor) rest

/-- find_free_slot from calendar_api_server.py, with the free/busy backend
response passed in as the `busy` list and ISO timestamps modelled as integer
minutes.  Scans the accumulated gaps in order; the first gap whose length is at
least duration + 2 * padding yields the slot shrunk by the padding on the left
and cut to exactly the duration; otherwise start and end are both None. -/
def find_free_slot (duration_minutes : Int) (window_start window_end : Int)
    (busy : List (Int × Int)) (pad_minutes : Int) : Option (Int × Int) :=
  let need := duration_minutes + pad_minutes * 2
  match (freeBlocks window_end window_start busy).find?
      (fun g => decide (need ≤ g.2 - g.1)) with
  | some g => some (g.1 + pad_minutes, g.1 + pad_minutes + duration_minutes)
  | none => none

/-- Every gap emitted by the cursor walk starts no earlier than the initial
cursor, is nonempty, ends no later than the window end (this needs every busy
start to be at most the window end), and is disjoint from every busy interval
of a start-sorted pairwise-disjoint busy list. -/
theorem freeBlocks_mem (endW : Int) (busy : List (Int × Int)) :
    ∀ (cursor : Int) (g : Int × Int),
      g ∈ freeBlocks endW cursor busy →
      busy.Pairwise (fun a b => a.2 ≤ b.1) →
      (∀ b ∈ busy, b.1 ≤ b.2) →
      (∀ b ∈ busy, b.1 ≤ endW) →
      cursor ≤ g.1 ∧ g.1 < g.2 ∧ g.2 ≤ endW ∧
        ∀ b ∈ busy, b.2 ≤ g.1 ∨ g.2 ≤ b.1 := by
  induction busy with
  | nil =>
      intro cursor g hg _ _ _
      simp only [freeBlocks] at hg
      split at hg
      · next hlt =>
          simp only [List.mem_singleton] at hg
          subst hg
          exact ⟨le_refl _, hlt, le_refl _, by simp⟩
      · simp at hg
  | cons hd rest ih =>
      obtain ⟨bs, be⟩ := hd
      intro cursor g hg hp hwf hbd
      simp only [freeBlocks, List.mem_append] at hg
      rcases hg with hg | hg
      · -- g is the gap emitted in front of the head busy interval
        split at hg
        · next hbc =>
            simp only [List.mem_singleton] at hg
            subst hg
            refine ⟨le_refl _, hbc, hbd (bs, be) (List.mem_cons_self _ _), ?_⟩
            intro b hb
            rcases List.mem_cons.1 hb with rfl | hb
            · exact Or.inr (le_refl _)
            · right
              exact le_trans (hwf (bs, be) (List.mem_cons_self _ _))
                (List.rel_of_pairwise_cons hp hb)
        · simp at hg
      · -- g comes from the recursive walk over the remaining busy intervals
        have hrec := ih (if be > cursor then be else cursor) g hg
          (List.Pairwise.of_cons hp)
          (fun b hb => hwf b (List.mem_cons_of_mem _ hb))
          (fun b hb => hbd b (List.mem_cons_of_mem _ hb))
        obtain ⟨h1, h2, h3, h4⟩ := hrec
        have hcur : cursor ≤ (if be > cursor then be else cursor) := by
          split
          · next h => exact le_of_lt h
          · exact le_refl _
        have hbe : be ≤ (if be > cursor then be else cursor) := by
          split
          · exact le_refl _
          · next h => exact le_of_not_lt h
        refine ⟨le_trans hcur h1, h2, h3, ?_⟩
        intro b hb
        rcases List.mem_cons.1 hb with rfl | hb
        · exact Or.inl (le_trans hbe h1)
        · exact h4 b hb

/-- Helper: the witnesses extracted from a successful slot search.  Whenever
find_free_slot returns a slot, some emitted gap contains it and has length at
least duration + 2 * padding. -/
theorem find_free_slot_some (duration_minutes window_start window_end : Int)
    (busy : List (Int × Int)) (pad_minutes : Int) (s e : Int)
    (h : find_free_slot duration_minutes window_start window_end busy
        pad_minutes = some (s, e)) :
    ∃ g ∈ freeBlocks window_end window_start busy,
      duration_minutes + pad_minutes * 2 ≤ g.2 - g.1 ∧
      s = g.1 + pad_minutes ∧ e = g.1 + pad_minutes + duration_minutes := by
  unfold find_free_slot at h
  simp only at h
  split at h
  · next g hfind =>
      refine ⟨g, List.mem_of_find?_eq_some hfind, ?_, ?_, ?_⟩
      · have := List.find?_some hfind
        exact of_decide_eq_true this
      · exact (Prod.mk.injEq _ _ _ _ ▸ (Option.some.inj h)).1.symm
      · exact (Prod.mk.injEq _ _ _ _ ▸ (Option.some.inj h)).2.symm
  · exact absurd h (by simp)

/-- C2 (corrected): under the hypotheses of the claim (busy sorted by start and
pairwise disjoint, duration > 0, padding >= 0) PLUS the additional hypothesis
that every busy interval starts no later than the window end, a returned slot
lies within the window, is disjoint from every busy interval, and has length
exactly the duration; and when no free gap of length duration + 2 * padding
exists inside the window, the result is none.  The extra hypothesis is forced
by the counterexample find_free_slot_outside_window below. -/
theorem find_free_slot_correct_amended
    (duration_minutes window_start window_end pad_minutes : Int)
    (busy : List (Int × Int))
    (_hdur : 0 < duration_minutes) (hpad : 0 ≤ pad_minutes)
    (hsort : busy.Pairwise (fun a b => a.2 ≤ b.1))
    (hwf : ∀ b ∈ busy, b.1 ≤ b.2)
    (hbd : ∀ b ∈ busy, b.1 ≤ window_end) :
    (∀ s e,
      find_free_slot duration_minutes window_start window_end busy pad_minutes
          = some (s, e) →
      window_start ≤ s ∧ e ≤ window_end ∧ e - s = duration_minutes ∧
        ∀ b ∈ busy, b.2 ≤ s ∨ e ≤ b.1) ∧
    ((¬ ∃ a c, window_start ≤ a ∧ c ≤ window_end ∧
        duration_minutes + 2 * pad_minutes ≤ c - a ∧
        ∀ b ∈ busy, b.2 ≤ a ∨ c ≤ b.1) →
      find_free_slot duration_minutes window_start window_end busy pad_minutes
        = none) := by
  have key : ∀ s e,
      find_free_slot duration_minutes window_start window_end busy pad_minutes
          = some (s, e) →
      (window_start ≤ s ∧ e ≤ window_end ∧ e - s = duration_minutes ∧
        ∀ b ∈ busy, b.2 ≤ s ∨ e ≤ b.1) ∧
      (∃ a c, window_start ≤ a ∧ c ≤ window_end ∧
        duration_minutes + 2 * pad_minutes ≤ c - a ∧
        ∀ b ∈ busy, b.2 ≤ a ∨ c ≤ b.1) := by
    intro s e h
    obtain ⟨g, hmem, hlen, hs, he⟩ :=
      find_free_slot_some _ _ _ _ _ _ _ h
    obtain ⟨hg1, hg2, hg3, hg4⟩ :=
      freeBlocks_mem window_end busy window_start g hmem hsort hwf hbd
    have hse : window_start ≤ s ∧ e ≤ window_end ∧ e - s = duration_minutes ∧
        ∀ b ∈ busy, b.2 ≤ s ∨ e ≤ b.1 := by
      subst hs he
      refine ⟨by linarith, by linarith, by ring, ?_⟩
      intro b hb
      rcases hg4 b hb with hl | hr
      · exact Or.inl (by linarith)
      · exact Or.inr (by linarith)
    exact ⟨hse, ⟨g.1, g.2, hg1.trans (le_refl _) |> fun h2 => by linarith, hg3,
      by linarith, hg4⟩⟩
  refine ⟨fun s e h => (key s e h).1, ?_⟩
  intro hno
  cases h : find_free_slot duration_minutes window_start window_end busy
      pad_minutes with
  | none => rfl
  | some se =>
      obtain ⟨s, e⟩ := se
      exact absurd ((key s e h).2) hno

/-- C2 counterexample: with window [0, 100), the single well-formed sorted
busy interval (150, 200) lying beyond the window end, duration 120 > 0 and
padding 0, the code returns the slot (0, 120).  The slot end 120 exceeds the
window end 100, and no free gap of length >= 120 exists inside the window
(its total length is only 100), so both conclusions of the claim as stated
fail even though all of its stated hypotheses hold. -/
theorem find_free_slot_outside_window :
    find_free_slot 120 0 100 [((150 : Int), (200 : Int))] 0 = some (0, 120) ∧
    ¬ ((120 : Int) ≤ 100) ∧
    (0 : Int) < 120 ∧ (0 : Int) ≤ 0 ∧
    ([((150 : Int), (200 : Int))].Pairwise (fun a b => a.2 ≤ b.1)) ∧
    (∀ b ∈ [((150 : Int), (200 : Int))], b.1 < b.2) := by
  refine ⟨by decide, by decide, by decide, by decide, ?_, by decide⟩
  exact List.pairwise_singleton _ _

/-- Witness for C2 (amended theorem): concrete instance (window 9:00-13:00 as
minutes 540-780, busy [(570,600),(660,690)], duration 30, padding 0); the
theorem applies, the code returns the slot (540, 570) - the first gap of
length 30 - and that slot is within the window with exactly the requested
length. -/
theorem find_free_slot_correct_amended_witness :
    find_free_slot 30 540 780 [((570 : Int), 600), (660, 690)] 0
        = some (540, 570) ∧
    (540 : Int) ≤ 540 ∧ (570 : Int) ≤ 780 ∧ (570 : Int) - 540 = 30 := by
  have h := (find_free_slot_correct_amended 30 540 780 0
    [((570 : Int), 600), (660, 690)] (by decide) (by decide)
    (by simp [List.pairwise_cons]) (by decide) (by decide)).1 540 570
    (by decide)
  exact ⟨by decide, h.1, h.2.1, h.2.2.1⟩

-- =========================================================================
-- Part 2: OTP Ledger
-- (src/email_otp_server/email-otp-mcp-server.py)
-- =========================================================================

/-- Default configuration values from the server (env-overridable; the
operations below take them as parameters and the scenario theorems
instantiate the defaults). -/
def TTL_S : Int := 600

/-- Default MAX_SENDS_PER_HOUR. -/
def MAX_SENDS_PER_HOUR : Nat := 5

/-- Default MAX_ATTEMPTS. -/
def MAX_ATTEMPTS : Nat := 5

/-- The per-email OTP record stored under the ":meta" key.  The `exp` field is
stored in the code as an ISO string and parsed back with fromisoformat; it is
modelled as the integer timestamp (seconds) it denotes. -/
structure OtpMeta where
  hash : String
  exp : Int
  attempts : Nat
deriving DecidableEq, Repr

/-- The per-email hourly send-rate bucket stored under the ":bucket" key. -/
structure RateBucket where
  count : Nat
  start : Int
deriving DecidableEq, Repr

/-- The in-memory STORE dictionary.  Its keys are "otp:<email.lower()>:meta"
and "otp:<email.lower()>:bucket"; since the two suffixes can never produce the
same key string, the single dict splits faithfully into one map per suffix,
each still keyed by the full key string. -/
structure Store where
  meta : String → Option OtpMeta
  bucket : String → Option RateBucket

/-- Key construction, mirroring the f-string "otp:{email.lower()}:{suffix}". -/
def otpKey (email sfx : String) : String :=
  "otp:" ++ email.toLower ++ ":" ++ sfx

/-- STORE[k] = v on the meta map. -/
def setMeta (k : String) (v : OtpMeta) (st : Store) : Store :=
  { st with meta := fun k2 => if k2 = k then some v else st.meta k2 }

/-- STORE.pop(k, None) on the meta map. -/
def delMeta (k : String) (st : Store) : Store :=
  { st with meta := fun k2 => if k2 = k then none else st.meta k2 }

/-- The _incr_bucket helper: reset the bucket when it is missing or its window
started more than 3600 seconds ago, increment the count, store it back, and
return the post-increment count. -/
def incr_bucket (now : Int) (st : Store) (email : String) :
    Store × Nat :=
  let k := otpKey email "bucket"
  let r0 : RateBucket :=
    match st.bucket k with
    | some r => if now - r.start > 3600 then { count := 0, start := now } else r
    | none => { count := 0, start := now }
  let r1 : RateBucket := { r0 with count := r0.count + 1 }
  ({ st with bucket := fun k2 => if k2 = k then some r1 else st.bucket k2 },
    r1.count)

/-- Result dict of _send_email_otp_impl (the Azure messageId of a successful
dispatch is external and not modelled). -/
structure SendResult where
  ok : Bool
  reason : Option String
  ttlSeconds : Option Int
deriving DecidableEq, Repr

/-- Result dict of _verify_email_otp_impl. -/
structure VerifyResult where
  ok : Bool
  reason : Option String
  verified : Option Bool
deriving DecidableEq, Repr

/-- The _send_email_otp_impl core logic.  The ACS/FROM configuration check and
the actual Azure email dispatch are external side effects (assumed configured
and successful); the freshly generated random 6-digit code enters as the
`code` parameter and only its hash is stored. -/
def send_email_otp_impl (hashFn : String → String) (maxSends : Nat) (ttl : Int)
    (now : Int) (code : String) (st : Store) (email : String) :
    Store × SendResult :=
  let out := incr_bucket now st email
  if out.2 > maxSends then
    (out.1, { ok := false, reason := some "too_many_requests",
              ttlSeconds := none })
  else
    let meta : OtpMeta := { hash := hashFn code, exp := now + ttl,
                            attempts := 0 }
    (setMeta (otpKey email "meta") meta out.1,
      { ok := true, reason := none, ttlSeconds := some ttl })

/-- The _verify_email_otp_impl core logic, branch for branch: missing record
fails no_pending; a strictly expired record is deleted and fails expired;
otherwise the attempts counter is incremented and stored, failing
too_many_attempts when the post-increment count exceeds the max and
incorrect_code when the hash of the supplied code mismatches; an exact hash
match deletes the record and succeeds with verified = true. -/
def verify_email_otp_impl (hashFn : String → String) (maxAttempts : Nat)
    (now : Int) (st : Store) (email code : String) :
    Store × VerifyResult :=
  match st.meta (otpKey email "meta") with
  | none => (st, { ok := false, reason := some "no_pending", verified := none })
  | some meta =>
    if now > meta.exp then
      (delMeta (otpKey email "meta") st,
        { ok := false, reason := some "expired", verified := none })
    else
      let meta1 : OtpMeta := { meta with attempts := meta.attempts + 1 }
      if meta1.attempts > maxAttempts then
        (setMeta (otpKey email "meta") meta1 st,
          { ok := false, reason := some "too_many_attempts", verified := none })
      else if hashFn code ≠ meta.hash then
        (setMeta (otpKey email "meta") meta1 st,
          { ok := false, reason := some "incorrect_code", verified := none })
      else
        (delMeta (otpKey email "meta") st,
          { ok := true, reason := none, verified := some true })

/-- Storing then reading the same meta key. -/
theorem setMeta_get_self (k : String) (v : OtpMeta) (st : Store) :
    (setMeta k v st).meta k = some v := by simp [setMeta]

/-- Storing leaves every other meta key unchanged. -/
theorem setMeta_get_ne (k k2 : String) (v : OtpMeta) (st : Store)
    (h : k2 ≠ k) : (setMeta k v st).meta k2 = st.meta k2 := by
  simp [setMeta, h]

/-- Deleting then reading the same meta key. -/
theorem delMeta_get_self (k : String) (st : Store) :
    (delMeta k st).meta k = none := by simp [delMeta]

/-- Verify with no pending record. -/
theorem verify_step_nopending (hashFn : String → String) (maxA : Nat)
    (now : Int) (st : Store) (email code : String)
    (hm : st.meta (otpKey email "meta") = none) :
    verify_email_otp_impl hashFn maxA now st email code =
      (st, { ok := false, reason := some "no_pending", verified := none }) := by
  simp [verify_email_otp_impl, hm]

/-- Verify on a strictly expired record. -/
theorem verify_step_expired (hashFn : String → String) (maxA : Nat)
    (now : Int) (st : Store) (email code : String) (m : OtpMeta)
    (hm : st.meta (otpKey email "meta") = some m) (hexp : now > m.exp) :
    verify_email_otp_impl hashFn maxA now st email code =
      (delMeta (otpKey email "meta") st,
       { ok := false, reason := some "expired", verified := none }) := by
  simp [verify_email_otp_impl, hm, if_pos hexp]

/-- Verify once the attempt limit is exceeded post-increment. -/
theorem verify_step_toomany (hashFn : String → String) (maxA : Nat)
    (now : Int) (st : Store) (email code : String) (m : OtpMeta)
    (hm : st.meta (otpKey email "meta") = some m) (hexp : ¬ now > m.exp)
    (hatt : m.attempts + 1 > maxA) :
    verify_email_otp_impl hashFn maxA now st email code =
      (setMeta (otpKey email "meta") { m with attempts := m.attempts + 1 } st,
       { ok := false, reason := some "too_many_attempts", verified := none }) := by
  simp [verify_email_otp_impl, hm, if_neg hexp, if_pos hatt]

/-- Verify with an incorrect code inside the attempt budget. -/
theorem verify_step_incorrect (hashFn : String → String) (maxA : Nat)
    (now : Int) (st : Store) (email code : String) (m : OtpMeta)
    (hm : st.meta (otpKey email "meta") = some m) (hexp : ¬ now > m.exp)
    (hh : hashFn code ≠ m.hash) (hatt : ¬ m.attempts + 1 > maxA) :
    verify_email_otp_impl hashFn maxA now st email code =
      (setMeta (otpKey email "meta") { m with attempts := m.attempts + 1 } st,
       { ok := false, reason := some "incorrect_code", verified := none }) := by
  simp [verify_email_otp_impl, hm, if_neg hexp, if_neg hatt, if_pos hh]

/-- Verify with the correct code inside the attempt budget. -/
theorem verify_step_success (hashFn : String → String) (maxA : Nat)
    (now : Int) (st : Store) (email code : String) (m : OtpMeta)
    (hm : st.meta (otpKey email "meta") = some m) (hexp : ¬ now > m.exp)
    (hh : hashFn code = m.hash) (hatt : ¬ m.attempts + 1 > maxA) :
    verify_email_otp_impl hashFn maxA now st email code =
      (delMeta (otpKey email "meta") st,
       { ok := true, reason := none, verified := some true }) := by
  simp [verify_email_otp_impl, hm, if_neg hexp, if_neg hatt,
    if_neg (not_not_intro hh)]

/-- Statement device for the repeated-verification scenarios: the store after
n successive verify calls for the same email, code and clock reading. -/
def verifyIter (hashFn : String → String) (maxA : Nat) (now : Int)
    (email code : String) : Nat → Store → Store
  | 0, st => st
  | n + 1, st =>
      (verify_email_otp_impl hashFn maxA now
        (verifyIter hashFn maxA now email code n st) email code).1

/-- After i wrong verifies (i within the budget) starting from a fresh record,
the stored record has attempts = i and unchanged hash and expiry. -/
theorem verifyIter_meta (hashFn : String → String) (now : Int) (st : Store)
    (email code : String) (m : OtpMeta)
    (hm : st.meta (otpKey email "meta") = some m) (h0 : m.attempts = 0)
    (hexp : ¬ now > m.exp) (hh : hashFn code ≠ m.hash) :
    ∀ i, i ≤ MAX_ATTEMPTS →
      (verifyIter hashFn MAX_ATTEMPTS now email code i st).meta
        (otpKey email "meta") = some { m with attempts := i } := by
  intro i
  induction i with
  | zero =>
      intro _
      simpa [verifyIter, ← h0] using hm
  | succ i ih =>
      intro hi
      have hmi := ih (Nat.le_of_succ_le hi)
      have hstep := verify_step_incorrect hashFn MAX_ATTEMPTS now
        (verifyIter hashFn MAX_ATTEMPTS now email code i st) email code
        { m with attempts := i } hmi (by simpa using hexp) (by simpa using hh)
        (by simp only [MAX_ATTEMPTS] at hi ⊢; omega)
      simp only [verifyIter, hstep]
      simpa using setMeta_get_self _ _ _

/-- C4 (confirmed): verify on an existing unexpired record increments the
attempts counter (any record retained after the call carries exactly
old attempts + 1) and fails with reason too_many_attempts exactly when the
post-increment count exceeds the configured maximum; and with the default
maximum 5, six wrong verifies in a row from a fresh record yield
incorrect_code on the first five calls and too_many_attempts on the sixth. -/
theorem otp_verify_attempt_limit :
    (∀ (hashFn : String → String) (maxA : Nat) (now : Int) (st : Store)
        (email code : String) (m : OtpMeta),
      st.meta (otpKey email "meta") = some m → ¬ now > m.exp →
      (((verify_email_otp_impl hashFn maxA now st email code).2.reason
          = some "too_many_attempts") ↔ m.attempts + 1 > maxA) ∧
      (∀ m2, (verify_email_otp_impl hashFn maxA now st email code).1.meta
          (otpKey email "meta") = some m2 → m2.attempts = m.attempts + 1)) ∧
    (∀ (hashFn : String → String) (now : Int) (st : Store)
        (email code : String) (m : OtpMeta),
      st.meta (otpKey email "meta") = some m → m.attempts = 0 →
      ¬ now > m.exp → hashFn code ≠ m.hash →
      (∀ i, i < 5 →
        (verify_email_otp_impl hashFn MAX_ATTEMPTS now
          (verifyIter hashFn MAX_ATTEMPTS now email code i st)
          email code).2.reason = some "incorrect_code") ∧
      (verify_email_otp_impl hashFn MAX_ATTEMPTS now
        (verifyIter hashFn MAX_ATTEMPTS now email code 5 st)
        email code).2.reason = some "too_many_attempts") := by
  constructor
  · intro hashFn maxA now st email code m hm hexp
    by_cases hatt : m.attempts + 1 > maxA
    · rw [verify_step_toomany hashFn maxA now st email code m hm hexp hatt]
      refine ⟨by simpa using hatt, ?_⟩
      intro m2 hm2
      rw [setMeta_get_self] at hm2
      simp [← Option.some.inj hm2]
    · by_cases hh : hashFn code = m.hash
      · rw [verify_step_success hashFn maxA now st email code m hm hexp hh hatt]
        refine ⟨by simpa using hatt, ?_⟩
        intro m2 hm2
        rw [delMeta_get_self] at hm2
        exact absurd hm2 (by simp)
      · rw [verify_step_incorrect hashFn maxA now st email code m hm hexp hh
          hatt]
        refine ⟨?_, ?_⟩
        · simp only [iff_false_intro hatt, iff_false]
          intro hcontra
          exact absurd (Option.some.inj hcontra) (by decide)
        · intro m2 hm2
          rw [setMeta_get_self] at hm2
          simp [← Option.some.inj hm2]
  · intro hashFn now st email code m hm h0 hexp hh
    have hiter := verifyIter_meta hashFn now st email code m hm h0 hexp hh
    constructor
    · intro i hi
      have hmi := hiter i (by simp only [MAX_ATTEMPTS]; omega)
      rw [verify_step_incorrect hashFn MAX_ATTEMPTS now _ email code
        { m with attempts := i } hmi (by simpa using hexp) (by simpa using hh)
        (by simp only [MAX_ATTEMPTS]; simp; omega)]
    · have hm5 := hiter 5 (by simp [MAX_ATTEMPTS])
      rw [verify_step_toomany hashFn MAX_ATTEMPTS now _ email code
        { m with attempts := 5 } hm5 (by simpa using hexp)
        (by simp [MAX_ATTEMPTS])]

/-- Concrete one-record store used by the OTP witnesses: a fresh record for
user@example.com holding hash "123456", expiry 100, attempts 0. -/
def otpStoreFresh : Store where
  meta := fun k =>
    if k = otpKey "user@example.com" "meta" then
      some { hash := "123456", exp := 100, attempts := 0 } else none
  bucket := fun _ => none

/-- Witness for C4: at the concrete fresh store, with the identity as the
opaque hash function and the wrong code "000000" at time 50, the first call
reports incorrect_code and the sixth reports too_many_attempts. -/
theorem otp_verify_attempt_limit_witness :
    (verify_email_otp_impl (fun s => s) MAX_ATTEMPTS 50
        (verifyIter (fun s => s) MAX_ATTEMPTS 50 "user@example.com" "000000" 0
          otpStoreFresh) "user@example.com" "000000").2.reason
      = some "incorrect_code" ∧
    (verify_email_otp_impl (fun s => s) MAX_ATTEMPTS 50
        (verifyIter (fun s => s) MAX_ATTEMPTS 50 "user@example.com" "000000" 5
          otpStoreFresh) "user@example.com" "000000").2.reason
      = some "too_many_attempts" := by
  have h := otp_verify_attempt_limit.2 (fun s => s) 50 otpStoreFresh
    "user@example.com" "000000" { hash := "123456", exp := 100, attempts := 0 }
    (by simp [otpStoreFresh]) rfl (by decide) (by decide)
  exact ⟨h.1 0 (by decide), h.2⟩

/-- Append-style lookup after incr_bucket: the new bucket value. -/
theorem incr_bucket_fresh (now : Int) (st : Store) (email : String)
    (hb : st.bucket (otpKey email "bucket") = none) :
    incr_bucket now st email =
      ({ st with bucket := fun k2 =>
          if k2 = otpKey email "bucket" then some { count := 1, start := now }
          else st.bucket k2 }, 1) := by
  simp [incr_bucket, hb]

/-- incr_bucket on a live (unreset) bucket. -/
theorem incr_bucket_live (now : Int) (st : Store) (email : String)
    (r : RateBucket) (hb : st.bucket (otpKey email "bucket") = some r)
    (hw : ¬ now - r.start > 3600) :
    incr_bucket now st email =
      ({ st with bucket := fun k2 =>
          if k2 = otpKey email "bucket"
            then some ({ count := r.count + 1, start := r.start } : RateBucket)
            else st.bucket k2 }, r.count + 1) := by
  simp [incr_bucket, hb, if_neg hw]

/-- Send in the non-refused branch. -/
theorem send_step_ok (hashFn : String → String) (cap : Nat) (ttl now : Int)
    (code : String) (st : Store) (email : String)
    (h : ¬ (incr_bucket now st email).2 > cap) :
    send_email_otp_impl hashFn cap ttl now code st email =
      (setMeta (otpKey email "meta")
        { hash := hashFn code, exp := now + ttl, attempts := 0 }
        (incr_bucket now st email).1,
       { ok := true, reason := none, ttlSeconds := some ttl }) := by
  simp [send_email_otp_impl, if_neg h]

/-- Send in the refused branch. -/
theorem send_step_refused (hashFn : String → String) (cap : Nat) (ttl now : Int)
    (code : String) (st : Store) (email : String)
    (h : (incr_bucket now st email).2 > cap) :
    send_email_otp_impl hashFn cap ttl now code st email =
      ((incr_bucket now st email).1,
       { ok := false, reason := some "too_many_requests",
         ttlSeconds := none }) := by
  simp [send_email_otp_impl, if_pos h]

/-- One successful send from an absent bucket: the first send of a window. -/
theorem send_once_first (hashFn : String → String) (cap : Nat) (ttl t : Int)
    (c email : String) (st : Store)
    (hb : st.bucket (otpKey email "bucket") = none) (hn : 1 ≤ cap) :
    ∃ st2, send_email_otp_impl hashFn cap ttl t c st email
        = (st2, { ok := true, reason := none, ttlSeconds := some ttl }) ∧
      st2.meta (otpKey email "meta")
        = some { hash := hashFn c, exp := t + ttl, attempts := 0 } ∧
      st2.bucket (otpKey email "bucket")
        = some { count := 1, start := t } := by
  have hi := incr_bucket_fresh t st email hb
  have he := send_step_ok hashFn cap ttl t c st email (by rw [hi]; simp; omega)
  refine ⟨_, he, setMeta_get_self _ _ _, ?_⟩
  simp only [setMeta]
  rw [hi]
  simp

/-- One successful send from a live bucket holding count n within the cap. -/
theorem send_once_ok (hashFn : String → String) (cap : Nat) (ttl t : Int)
    (c email : String) (st : Store) (n : Nat) (t0 : Int)
    (hb : st.bucket (otpKey email "bucket")
      = some { count := n, start := t0 })
    (hw : ¬ t - t0 > 3600) (hn : n + 1 ≤ cap) :
    ∃ st2, send_email_otp_impl hashFn cap ttl t c st email
        = (st2, { ok := true, reason := none, ttlSeconds := some ttl }) ∧
      st2.meta (otpKey email "meta")
        = some { hash := hashFn c, exp := t + ttl, attempts := 0 } ∧
      st2.bucket (otpKey email "bucket")
        = some { count := n + 1, start := t0 } := by
  have hi := incr_bucket_live t st email { count := n, start := t0 } hb
    (by simpa using hw)
  have he := send_step_ok hashFn cap ttl t c st email (by rw [hi]; simp; omega)
  refine ⟨_, he, setMeta_get_self _ _ _, ?_⟩
  simp only [setMeta]
  rw [hi]
  simp

/-- One refused send from a live bucket already at or beyond the cap; the meta
map is untouched. -/
theorem send_once_refused (hashFn : String → String) (cap : Nat) (ttl t : Int)
    (c email : String) (st : Store) (n : Nat) (t0 : Int)
    (hb : st.bucket (otpKey email "bucket")
      = some { count := n, start := t0 })
    (hw : ¬ t - t0 > 3600) (hn : n + 1 > cap) :
    ∃ st2, send_email_otp_impl hashFn cap ttl t c st email
        = (st2, { ok := false, reason := some "too_many_requests",
                  ttlSeconds := none }) ∧
      st2.meta = st.meta := by
  have hi := incr_bucket_live t st email { count := n, start := t0 } hb
    (by simpa using hw)
  have he := send_step_refused hashFn cap ttl t c st email
    (by rw [hi]; simpa using hn)
  refine ⟨_, he, ?_⟩
  rw [hi]

/-- C5 (confirmed): issue increments the hourly bucket and refuses with
too_many_requests, storing no code, exactly when the post-increment count
exceeds the cap; otherwise it succeeds and stores a fresh hashed code with
attempts = 0.  With the default cap 5, six issues for one email within a
single rate window (bucket initially absent, every later clock reading within
3600 seconds of the first) succeed five times, each storing the corresponding
hashed code with attempts = 0, and the sixth is refused with the meta record
left as the fifth stored it. -/
theorem otp_send_rate_limit :
    (∀ (hashFn : String → String) (cap : Nat) (ttl now : Int) (code : String)
        (st : Store) (email : String),
      ((incr_bucket now st email).2 =
        match st.bucket (otpKey email "bucket") with
        | some r => if now - r.start > 3600 then 1 else r.count + 1
        | none => 1) ∧
      (send_email_otp_impl hashFn cap ttl now code st email).1.bucket
          = (incr_bucket now st email).1.bucket ∧
      (((send_email_otp_impl hashFn cap ttl now code st email).2.reason
          = some "too_many_requests") ↔ (incr_bucket now st email).2 > cap) ∧
      ((incr_bucket now st email).2 > cap →
        (send_email_otp_impl hashFn cap ttl now code st email).1.meta
          = st.meta) ∧
      (¬ (incr_bucket now st email).2 > cap →
        (send_email_otp_impl hashFn cap ttl now code st email).2
            = { ok := true, reason := none, ttlSeconds := some ttl } ∧
        (send_email_otp_impl hashFn cap ttl now code st email).1.meta
            (otpKey email "meta")
          = some { hash := hashFn code, exp := now + ttl, attempts := 0 })) ∧
    (∀ (hashFn : String → String) (ttl : Int) (email : String)
        (c1 c2 c3 c4 c5 c6 : String) (t1 t2 t3 t4 t5 t6 : Int) (st : Store),
      st.bucket (otpKey email "bucket") = none →
      t2 - t1 ≤ 3600 → t3 - t1 ≤ 3600 → t4 - t1 ≤ 3600 →
      t5 - t1 ≤ 3600 → t6 - t1 ≤ 3600 →
      ∃ st1 st2 st3 st4 st5 st6 r6,
        send_email_otp_impl hashFn MAX_SENDS_PER_HOUR ttl t1 c1 st email
            = (st1, { ok := true, reason := none, ttlSeconds := some ttl }) ∧
        send_email_otp_impl hashFn MAX_SENDS_PER_HOUR ttl t2 c2 st1 email
            = (st2, { ok := true, reason := none, ttlSeconds := some ttl }) ∧
        send_email_otp_impl hashFn MAX_SENDS_PER_HOUR ttl t3 c3 st2 email
            = (st3, { ok := true, reason := none, ttlSeconds := some ttl }) ∧
        send_email_otp_impl hashFn MAX_SENDS_PER_HOUR ttl t4 c4 st3 email
            = (st4, { ok := true, reason := none, ttlSeconds := some ttl }) ∧
        send_email_otp_impl hashFn MAX_SENDS_PER_HOUR ttl t5 c5 st4 email
            = (st5, { ok := true, reason := none, ttlSeconds := some ttl }) ∧
        send_email_otp_impl hashFn MAX_SENDS_PER_HOUR ttl t6 c6 st5 email
            = (st6, r6) ∧
        st1.meta (otpKey email "meta")
            = some { hash := hashFn c1, exp := t1 + ttl, attempts := 0 } ∧
        st2.meta (otpKey email "meta")
            = some { hash := hashFn c2, exp := t2 + ttl, attempts := 0 } ∧
        st3.meta (otpKey email "meta")
            = some { hash := hashFn c3, exp := t3 + ttl, attempts := 0 } ∧
        st4.meta (otpKey email "meta")
            = some { hash := hashFn c4, exp := t4 + ttl, attempts := 0 } ∧
        st5.meta (otpKey email "meta")
            = some { hash := hashFn c5, exp := t5 + ttl, attempts := 0 } ∧
        r6 = { ok := false, reason := some "too_many_requests",
               ttlSeconds := none } ∧
        st6.meta = st5.meta) := by
  constructor
  · intro hashFn cap ttl now code st email
    refine ⟨?_, ?_, ?_, ?_, ?_⟩
    · unfold incr_bucket
      cases hb : st.bucket (otpKey email "bucket") with
      | none => simp [hb]
      | some r =>
          by_cases hw : now - r.start > 3600
          · simp [hb, if_pos hw]
          · simp [hb, if_neg hw]
    · by_cases h : (incr_bucket now st email).2 > cap
      · rw [send_step_refused hashFn cap ttl now code st email h]
      · rw [send_step_ok hashFn cap ttl now code st email h]
        rfl
    · by_cases h : (incr_bucket now st email).2 > cap
      · rw [send_step_refused hashFn cap ttl now code st email h]
        simpa using h
      · rw [send_step_ok hashFn cap ttl now code st email h]
        simp [h]
    · intro h
      rw [send_step_refused hashFn cap ttl now code st email h]
      rfl
    · intro h
      rw [send_step_ok hashFn cap ttl now code st email h]
      exact ⟨rfl, setMeta_get_self _ _ _⟩
  · intro hashFn ttl email c1 c2 c3 c4 c5 c6 t1 t2 t3 t4 t5 t6 st hb
      hw2 hw3 hw4 hw5 hw6
    simp only [MAX_SENDS_PER_HOUR]
    obtain ⟨st1, he1, hm1, hb1⟩ :=
      send_once_first hashFn 5 ttl t1 c1 email st hb (by omega)
    obtain ⟨st2, he2, hm2, hb2⟩ :=
      send_once_ok hashFn 5 ttl t2 c2 email st1 1 t1 hb1 (by omega) (by omega)
    obtain ⟨st3, he3, hm3, hb3⟩ :=
      send_once_ok hashFn 5 ttl t3 c3 email st2 2 t1 hb2 (by omega) (by omega)
    obtain ⟨st4, he4, hm4, hb4⟩ :=
      send_once_ok hashFn 5 ttl t4 c4 email st3 3 t1 hb3 (by omega) (by omega)
    obtain ⟨st5, he5, hm5, hb5⟩ :=
      send_once_ok hashFn 5 ttl t5 c5 email st4 4 t1 hb4 (by omega) (by omega)
    obtain ⟨st6, he6, hm6⟩ :=
      send_once_refused hashFn 5 ttl t6 c6 email st5 5 t1 hb5 (by omega)
        (by omega)
    exact ⟨st1, st2, st3, st4, st5, st6, _, he1, he2, he3, he4, he5, he6,
      hm1, hm2, hm3, hm4, hm5, rfl, hm6⟩

/-- Witness for C5: six issues for user@example.com, all at time 0 (one rate
window) against a store with no bucket, with the identity as the opaque hash
function; the theorem applies and yields five successes and a sixth refusal. -/
theorem otp_send_rate_limit_witness :
    ∃ st1 st2 st3 st4 st5 st6 r6,
      send_email_otp_impl (fun s => s) MAX_SENDS_PER_HOUR 600 0 "111111"
          otpStoreFresh "user@example.com"
        = (st1, { ok := true, reason := none, ttlSeconds := some 600 }) ∧
      send_email_otp_impl (fun s => s) MAX_SENDS_PER_HOUR 600 0 "222222"
          st1 "user@example.com"
        = (st2, { ok := true, reason := none, ttlSeconds := some 600 }) ∧
      send_email_otp_impl (fun s => s) MAX_SENDS_PER_HOUR 600 0 "333333"
          st2 "user@example.com"
        = (st3, { ok := true, reason := none, ttlSeconds := some 600 }) ∧
      send_email_otp_impl (fun s => s) MAX_SENDS_PER_HOUR 600 0 "444444"
          st3 "user@example.com"
        = (st4, { ok := true, reason := none, ttlSeconds := some 600 }) ∧
      send_email_otp_impl (fun s => s) MAX_SENDS_PER_HOUR 600 0 "555555"
          st4 "user@example.com"
        = (st5, { ok := true, reason := none, ttlSeconds := some 600 }) ∧
      send_email_otp_impl (fun s => s) MAX_SENDS_PER_HOUR 600 0 "666666"
          st5 "user@example.com" = (st6, r6) ∧
      st1.meta (otpKey "user@example.com" "meta")
        = some { hash := (fun s => s) "111111", exp := 0 + 600,
                 attempts := 0 } ∧
      st2.meta (otpKey "user@example.com" "meta")
        = some { hash := (fun s => s) "222222", exp := 0 + 600,
                 attempts := 0 } ∧
      st3.meta (otpKey "user@example.com" "meta")
        = some { hash := (fun s => s) "333333", exp := 0 + 600,
                 attempts := 0 } ∧
      st4.meta (otpKey "user@example.com" "meta")
        = some { hash := (fun s => s) "444444", exp := 0 + 600,
                 attempts := 0 } ∧
      st5.meta (otpKey "user@example.com" "meta")
        = some { hash := (fun s => s) "555555", exp := 0 + 600,
                 attempts := 0 } ∧
      r6 = { ok := false, reason := some "too_many_requests",
             ttlSeconds := none } ∧
      st6.meta = st5.meta :=
  otp_send_rate_limit.2 (fun s => s) 600 "user@example.com"
    "111111" "222222" "333333" "444444" "555555" "666666" 0 0 0 0 0 0
    otpStoreFresh rfl (by decide) (by decide) (by decide) (by decide)
    (by decide)

/-- C6 (corrected): the record for an email is deleted by verify exactly when
the current time is strictly past the expiry (reason expired) or when the
hash matches AND the post-increment attempts count is still within the
maximum, in which case the call returns ok with verified = true and an
immediately subsequent verify returns no_pending.  The unconditional claim
"deleted when the hash matches" fails once the attempt budget is exhausted:
see otp_verify_retained_despite_match. -/
theorem otp_verify_deletion_amended :
    ∀ (hashFn : String → String) (maxA : Nat) (now : Int) (st : Store)
      (email code : String) (m : OtpMeta),
    st.meta (otpKey email "meta") = some m →
    (((verify_email_otp_impl hashFn maxA now st email code).1.meta
        (otpKey email "meta") = none) ↔
      (now > m.exp ∨ (¬ m.attempts + 1 > maxA ∧ hashFn code = m.hash))) ∧
    (now > m.exp →
      (verify_email_otp_impl hashFn maxA now st email code).2
        = { ok := false, reason := some "expired", verified := none }) ∧
    (¬ now > m.exp → ¬ m.attempts + 1 > maxA → hashFn code = m.hash →
      (verify_email_otp_impl hashFn maxA now st email code).2
          = { ok := true, reason := none, verified := some true } ∧
      (verify_email_otp_impl hashFn maxA now
          (verify_email_otp_impl hashFn maxA now st email code).1
          email code).2
        = { ok := false, reason := some "no_pending",
            verified := none }) := by
  intro hashFn maxA now st email code m hm
  refine ⟨?_, ?_, ?_⟩
  · by_cases hexp : now > m.exp
    · rw [verify_step_expired hashFn maxA now st email code m hm hexp]
      simp [delMeta_get_self, hexp]
    · by_cases hatt : m.attempts + 1 > maxA
      · rw [verify_step_toomany hashFn maxA now st email code m hm hexp hatt]
        simp [setMeta_get_self, hexp, hatt]
      · by_cases hh : hashFn code = m.hash
        · rw [verify_step_success hashFn maxA now st email code m hm hexp hh
            hatt]
          simp [delMeta_get_self, hexp, hatt, hh]
        · rw [verify_step_incorrect hashFn maxA now st email code m hm hexp hh
            hatt]
          simp [setMeta_get_self, hexp, hatt, hh]
  · intro hexp
    rw [verify_step_expired hashFn maxA now st email code m hm hexp]
  · intro hexp hatt hh
    rw [verify_step_success hashFn maxA now st email code m hm hexp hh hatt]
    exact ⟨rfl, by
      rw [verify_step_nopending hashFn maxA now _ email code
        (delMeta_get_self _ _)]⟩

/-- Concrete store whose record for user@example.com already carries
attempts = 5, the default maximum. -/
def otpStoreMaxed : Store where
  meta := fun k =>
    if k = otpKey "user@example.com" "meta" then
      some { hash := "123456", exp := 100, attempts := 5 } else none
  bucket := fun _ => none

/-- C6 counterexample: at attempts = 5 with the default maximum 5, a verify
call at time 50 (before the expiry 100) whose code hashes exactly to the
stored hash does NOT delete the record - it is retained with attempts = 6 and
the call fails with too_many_attempts - refuting the claim that a hash match
is a deletion (and success) case. -/
theorem otp_verify_retained_despite_match :
    ((fun s : String => s) "123456" = "123456") ∧
    ¬ ((50 : Int) > 100) ∧
    (verify_email_otp_impl (fun s => s) MAX_ATTEMPTS 50 otpStoreMaxed
        "user@example.com" "123456").1.meta (otpKey "user@example.com" "meta")
      = some { hash := "123456", exp := 100, attempts := 6 } ∧
    (verify_email_otp_impl (fun s => s) MAX_ATTEMPTS 50 otpStoreMaxed
        "user@example.com" "123456").2
      = { ok := false, reason := some "too_many_attempts",
          verified := none } := by
  have hm : otpStoreMaxed.meta (otpKey "user@example.com" "meta")
      = some { hash := "123456", exp := 100, attempts := 5 } := by
    simp [otpStoreMaxed]
  have he := verify_step_toomany (fun s => s) MAX_ATTEMPTS 50 otpStoreMaxed
    "user@example.com" "123456" _ hm (by decide) (by decide)
  refine ⟨rfl, by decide, ?_, ?_⟩
  · rw [he]; exact setMeta_get_self _ _ _
  · rw [he]

/-- Witness for the amended C6 theorem: on the fresh record with matching code
"123456" at time 50, the verify succeeds with verified = true and the
immediately following verify reports no_pending. -/
theorem otp_verify_deletion_amended_witness :
    (verify_email_otp_impl (fun s => s) MAX_ATTEMPTS 50 otpStoreFresh
        "user@example.com" "123456").2
      = { ok := true, reason := none, verified := some true } ∧
    (verify_email_otp_impl (fun s => s) MAX_ATTEMPTS 50
        (verify_email_otp_impl (fun s => s) MAX_ATTEMPTS 50 otpStoreFresh
          "user@example.com" "123456").1 "user@example.com" "123456").2
      = { ok := false, reason := some "no_pending", verified := none } :=
  (otp_verify_deletion_amended (fun s => s) MAX_ATTEMPTS 50 otpStoreFresh
    "user@example.com" "123456" { hash := "123456", exp := 100, attempts := 0 }
    (by simp [otpStoreFresh])).2.2 (by decide) (by decide) rfl

/-- C10 (confirmed): whenever verify returns incorrect_code or
too_many_attempts, the stored record for that email is retained with its hash
and expiry unchanged and attempts exactly one greater, every other meta key is
untouched, and the bucket map is untouched. -/
theorem otp_verify_failure_frame :
    ∀ (hashFn : String → String) (maxA : Nat) (now : Int) (st : Store)
      (email code : String),
    ((verify_email_otp_impl hashFn maxA now st email code).2.reason
        = some "incorrect_code" ∨
     (verify_email_otp_impl hashFn maxA now st email code).2.reason
        = some "too_many_attempts") →
    ∃ m, st.meta (otpKey email "meta") = some m ∧
      (verify_email_otp_impl hashFn maxA now st email code).1.meta
          (otpKey email "meta")
        = some { hash := m.hash, exp := m.exp,
                 attempts := m.attempts + 1 } ∧
      (∀ k2, k2 ≠ otpKey email "meta" →
        (verify_email_otp_impl hashFn maxA now st email code).1.meta k2
          = st.meta k2) ∧
      (verify_email_otp_impl hashFn maxA now st email code).1.bucket
        = st.bucket := by
  intro hashFn maxA now st email code hr
  cases hmeta : st.meta (otpKey email "meta") with
  | none =>
      rw [verify_step_nopending hashFn maxA now st email code hmeta] at hr
      rcases hr with h | h <;>
        exact absurd (Option.some.inj h) (by decide)
  | some m =>
      by_cases hexp : now > m.exp
      · rw [verify_step_expired hashFn maxA now st email code m hmeta hexp]
          at hr
        rcases hr with h | h <;>
          exact absurd (Option.some.inj h) (by decide)
      · by_cases hatt : m.attempts + 1 > maxA
        · have he := verify_step_toomany hashFn maxA now st email code m
            hmeta hexp hatt
          refine ⟨m, rfl, ?_, ?_, ?_⟩
          · rw [he]; exact setMeta_get_self _ _ _
          · intro k2 hk2; rw [he]; exact setMeta_get_ne _ _ _ _ hk2
          · rw [he]; rfl
        · by_cases hh : hashFn code = m.hash
          · rw [verify_step_success hashFn maxA now st email code m hmeta hexp
              hh hatt] at hr
            rcases hr with h | h <;> exact absurd h (by simp)
          · have he := verify_step_incorrect hashFn maxA now st email code m
              hmeta hexp hh hatt
            refine ⟨m, rfl, ?_, ?_, ?_⟩
            · rw [he]; exact setMeta_get_self _ _ _
            · intro k2 hk2; rw [he]; exact setMeta_get_ne _ _ _ _ hk2
            · rw [he]; rfl

/-- Witness for C10: the fresh record verified with the wrong code "000000" at
time 50 lands in the incorrect_code branch, and the frame conditions hold at
that concrete input. -/
theorem otp_verify_failure_frame_witness :
    ∃ m, otpStoreFresh.meta (otpKey "user@example.com" "meta") = some m ∧
      (verify_email_otp_impl (fun s => s) MAX_ATTEMPTS 50 otpStoreFresh
          "user@example.com" "000000").1.meta
          (otpKey "user@example.com" "meta")
        = some { hash := m.hash, exp := m.exp,
                 attempts := m.attempts + 1 } ∧
      (verify_email_otp_impl (fun s => s) MAX_ATTEMPTS 50 otpStoreFresh
          "user@example.com" "000000").1.bucket
        = otpStoreFresh.bucket := by
  obtain ⟨m, h1, h2, h3, h4⟩ :=
    otp_verify_failure_frame (fun s => s) MAX_ATTEMPTS 50 otpStoreFresh
      "user@example.com" "000000" (Or.inl (by
        rw [verify_step_incorrect (fun s => s) MAX_ATTEMPTS 50 otpStoreFresh
          "user@example.com" "000000"
          { hash := "123456", exp := 100, attempts := 0 }
          (by simp [otpStoreFresh]) (by decide) (by decide) (by decide)]))
  exact ⟨m, h1, h2, h4⟩

-- =========================================================================
-- Part 3: shared basics for the agent (src/agent/agent_run.py)
-- =========================================================================

/-- A Python datetime: wall-clock time in minutes plus an optional UTC offset
in minutes (none models a naive datetime).  isoformat is injective on these
two fields and fromisoformat inverts it, so equality of DTime values is
byte-equality of the ISO strings they print to. -/
structure DTime where
  wall : Int
  off : Option Int
deriving DecidableEq, Repr

/-- timedelta addition in minutes. -/
def DTime.addMin (d : DTime) (m : Int) : DTime :=
  { d with wall := d.wall + m }

/-- Python (now + timedelta(days=1)).replace(hour=10, minute=0, second=0,
microsecond=0): advance one day, then reset the time of day to 10:00.
Int.fdiv is floor division, matching Python calendar-day arithmetic. -/
def tomorrow10 (now : DTime) : DTime :=
  { now with wall := ((now.wall + 1440).fdiv 1440) * 1440 + 600 }

/-- A timestamp-bearing string in the orchestrator: either an opaque string
that came back from a backend (`raw`), or the isoformat of a datetime
(`iso`).  Since isoformat is injective, equality of TStr values models
byte-equality of the strings. -/
inductive TStr
  | raw (s : String)
  | iso (d : DTime)
deriving DecidableEq, Repr

/-- Python truthiness of a string value ("" is falsy; an isoformat output is
never empty). -/
def TStr.pyTruthy : TStr → Bool
  | .raw s => !(s == "")
  | .iso _ => true

/-- Python truthiness of dict.get(k) for a string-valued key. -/
def pyTruthyT : Option TStr → Bool
  | none => false
  | some t => t.pyTruthy

/-- Python truthiness of an optional string (None and "" are falsy). -/
def pyTruthyS : Option String → Bool
  | none => false
  | some s => !(s == "")

/-- str.startswith on character lists. -/
def startsWithL : List Char → List Char → Bool
  | _, [] => true
  | [], _ :: _ => false
  | c :: s, p :: ps => c == p && startsWithL s ps

/-- Python substring membership (needle in haystack) on character lists. -/
def containsL : List Char → List Char → Bool
  | [], pat => pat.isEmpty
  | s@(_ :: t), pat => startsWithL s pat || containsL t pat

/-- str.lower on character lists. -/
def lowerL (s : List Char) : List Char := s.map Char.toLower

-- =========================================================================
-- Part 4: Tool Gateway (src/agent/agent_run.py, call_tool)
-- =========================================================================

/-- The "email." namespace marker. -/
def emailPre : List Char := "email.".toList

/-- The "calendar." namespace marker. -/
def calPre : List Char := "calendar.".toList

/-- The argument dict of a tool call as the proposer or the orchestrator
builds it; absent keys are none.  Only the keys the agent reads or writes are
modelled; the payload carries them through to the backend unchanged. -/
structure CallArgs where
  email : Option String := none
  code : Option String := none
  summary : Option String := none
  title : Option String := none
  start_iso : Option TStr := none
  end_iso : Option TStr := none
  duration_minutes : Option Int := none
  pad_minutes : Option Int := none
  window_start_iso : Option TStr := none
  window_end_iso : Option TStr := none
deriving DecidableEq, Repr

/-- The HTTP POST that call_tool issues: target base address, the "name"
field of the JSON payload, the forwarded arguments, and whether the
X-Verified header is attached. -/
structure GatewayRequest where
  base : String
  payloadName : List Char
  payloadArgs : CallArgs
  xVerified : Bool
deriving DecidableEq, Repr

/-- Python name.split(".", 1) when a dot exists: the part before the first
dot and the part after it; none when the string has no dot (in which case
the [1] index in the code raises IndexError). -/
def splitAtFirstDot : List Char → Option (List Char × List Char)
  | [] => none
  | c :: cs =>
      if c = '.' then some ([], cs)
      else
        match splitAtFirstDot cs with
        | some p => some (c :: p.1, p.2)
        | none => none

/-- call_tool from agent_run.py: base is the email server for names starting
with "email." and the calendar server otherwise; the payload name keeps
email-prefixed names whole and takes name.split(".", 1)[1] otherwise (none
models the IndexError raised for a dotless non-email name); the X-Verified
header is attached exactly for "calendar."-prefixed names with verified
true.  The arguments dict is forwarded unchanged (`args or {}` only replaces
a missing dict by an empty one). -/
def call_tool (calBase emailBase : String) (name : List Char)
    (args : CallArgs) (verified : Bool) : Option GatewayRequest :=
  let base := if startsWithL name emailPre then emailBase else calBase
  let payloadName? :=
    if startsWithL name emailPre then some name
    else (splitAtFirstDot name).map (fun p => p.2)
  match payloadName? with
  | none => none
  | some pn =>
      some { base := base, payloadName := pn, payloadArgs := args,
             xVerified := startsWithL name calPre && verified }

/-- Splitting at the first dot of ns ++ "." ++ rest recovers (ns, rest) when
ns itself contains no dot. -/
theorem splitAtFirstDot_append (ns rest : List Char) (h : '.' ∉ ns) :
    splitAtFirstDot (ns ++ '.' :: rest) = some (ns, rest) := by
  induction ns with
  | nil => simp [splitAtFirstDot]
  | cons c cs ih =>
      simp only [List.mem_cons, not_or] at h
      obtain ⟨h1, h2⟩ := h
      have hc : ¬ c = '.' := fun e => h1 e.symm
      simp only [List.cons_append, splitAtFirstDot, if_neg hc,
        List.append_eq, ih h2]

/-- C9 (corrected): for every qualified name ns ++ "." ++ rest (ns dot-free),
call_tool routes email.-prefixed names to the email base and everything else
to the calendar base, attaches X-Verified exactly for calendar.-prefixed
names with verified true, and strips the namespace only for non-email names:
an email.-prefixed name is forwarded whole.  The unconditional claim that the
"strips the namespace prefix" fails for email names: see
call_tool_email_not_stripped. -/
theorem call_tool_routing_amended :
    ∀ (calBase emailBase : String) (ns rest : List Char) (args : CallArgs)
      (verified : Bool),
    '.' ∉ ns →
    call_tool calBase emailBase (ns ++ '.' :: rest) args verified
      = some { base := if startsWithL (ns ++ '.' :: rest) emailPre
                 then emailBase else calBase,
               payloadName := if startsWithL (ns ++ '.' :: rest) emailPre
                 then ns ++ '.' :: rest else rest,
               payloadArgs := args,
               xVerified := startsWithL (ns ++ '.' :: rest) calPre
                 && verified } := by
  intro calBase emailBase ns rest args verified h
  by_cases hm : startsWithL (ns ++ '.' :: rest) emailPre
  · simp [call_tool, hm]
  · simp [call_tool, hm, splitAtFirstDot_append ns rest h]

/-- C9 counterexample: the qualified email tool name
"email.send_email_otp" is forwarded to the backend whole - call_tool puts
the un-stripped name in the payload, not "send_email_otp" - refuting the
claim that the namespace prefix is stripped before calling the backend. -/
theorem call_tool_email_not_stripped :
    (call_tool "http://localhost:8080" "http://localhost:8090"
        ("email.send_email_otp".toList) ({} : CallArgs) false).map
        GatewayRequest.payloadName
      = some ("email.send_email_otp".toList) ∧
    "email.send_email_otp".toList ≠ "send_email_otp".toList := by
  exact ⟨by decide, by decide⟩

/-- Witness for the amended C9 theorem at the concrete calendar name
"calendar.create_calendar_event" with verified true: the namespace is
dot-free and the theorem applies. -/
theorem call_tool_routing_amended_witness :
    ('.' ∉ "calendar".toList) ∧
    call_tool "http://localhost:8080" "http://localhost:8090"
        ("calendar".toList ++ '.' :: "create_calendar_event".toList)
        ({} : CallArgs) true
      = some { base := if startsWithL
                 ("calendar".toList ++ '.' :: "create_calendar_event".toList)
                 emailPre then "http://localhost:8090"
                 else "http://localhost:8080",
               payloadName := if startsWithL
                 ("calendar".toList ++ '.' :: "create_calendar_event".toList)
                 emailPre
                 then "calendar".toList ++ '.' :: "create_calendar_event".toList
                 else "create_calendar_event".toList,
               payloadArgs := ({} : CallArgs),
               xVerified := startsWithL
                 ("calendar".toList ++ '.' :: "create_calendar_event".toList)
                 calPre && true } :=
  ⟨by decide, call_tool_routing_amended "http://localhost:8080"
    "http://localhost:8090" "calendar".toList "create_calendar_event".toList
    ({} : CallArgs) true (by decide)⟩

-- =========================================================================
-- Part 5: Intent Normalizer (src/agent/agent_run.py, normalize_booking_args)
-- =========================================================================

/-- DEFAULT_DURATION_MIN (env default 60 minutes). -/
def DEFAULT_DURATION_MIN : Int := 60

/-- The value found under "start_iso": a string fromisoformat parses
(represented by the datetime it denotes, with the offset the string carried,
after the "Z" to "+00:00" replacement) or a string it rejects. -/
inductive IsoField
  | dt (d : DTime)
  | bad (s : String)
deriving DecidableEq, Repr

/-- The args dict of a booking request as normalize_booking_args reads and
writes it; absent keys (and non-string start_iso values) are none, and keys
the function never touches pass through unchanged on any application. -/
structure BookingArgs where
  summary : Option String := none
  title : Option String := none
  start_iso : Option IsoField := none
  end_iso : Option IsoField := none
  duration_minutes : Option Int := none
deriving DecidableEq, Repr

/-- int(args.get("duration_minutes") or DEFAULT_DURATION_MIN): an absent or
zero (falsy) value yields the default. -/
def pyDuration (args : BookingArgs) : Int :=
  match args.duration_minutes with
  | some d => if d = 0 then DEFAULT_DURATION_MIN else d
  | none => DEFAULT_DURATION_MIN

/-- summary = args.get("summary") or args.get("title") or "Appointment"
(empty strings are falsy). -/
def pySummary (args : BookingArgs) : String :=
  if pyTruthyS args.summary then args.summary.getD ""
  else if pyTruthyS args.title then args.title.getD ""
  else "Appointment"

/-- The tail of normalize_booking_args once the start datetime is fixed:
attach the session timezone when the datetime is naive, compute
end = start + duration, write summary/start_iso/end_iso, and pop the title
and duration_minutes keys. -/
def finishNormalize (tzOff : Int) (args : BookingArgs) (start0 : DTime) :
    BookingArgs :=
  let start1 := if start0.off = none then { start0 with off := some tzOff }
                else start0
  { summary := some (pySummary args), title := none,
    start_iso := some (.dt start1),
    end_iso := some (.dt (start1.addMin (pyDuration args))),
    duration_minutes := none }

/-- normalize_booking_args from agent_run.py.  The start datetime is the
parsed "start_iso" argument when that parses; otherwise, when the last user
intent is a truthy string, the code calls parse_when(last_user_intent, tz)
passing the *string* tz where a tzinfo is expected, so datetime.now(tz)
raises TypeError - modelled as none; otherwise the fallback is tomorrow at
10:00.  `now` stands for datetime.now(tzinfo) and tzOff for the offset of
get_zoneinfo(TIMEZONE). -/
def normalize_booking_args (now : DTime) (tzOff : Int) (args : BookingArgs)
    (last_user_intent : Option String) : Option BookingArgs :=
  match args.start_iso with
  | some (.dt d) => some (finishNormalize tzOff args d)
  | _ =>
      if pyTruthyS last_user_intent then none
      else some (finishNormalize tzOff args (tomorrow10 now))

/-- The summary computed by the normalizer is never the empty string. -/
theorem pySummary_ne_empty (args : BookingArgs) : pySummary args ≠ "" := by
  unfold pySummary
  by_cases h1 : pyTruthyS args.summary
  · rw [if_pos h1]
    cases hs : args.summary with
    | none => rw [hs] at h1; exact absurd h1 (by simp [pyTruthyS])
    | some s =>
        rw [hs] at h1
        simpa [pyTruthyS] using h1
  · rw [if_neg h1]
    by_cases h2 : pyTruthyS args.title
    · rw [if_pos h2]
      cases ht : args.title with
      | none => rw [ht] at h2; exact absurd h2 (by simp [pyTruthyS])
      | some s =>
          rw [ht] at h2
          simpa [pyTruthyS] using h2
    · rw [if_neg h2]
      decide

/-- The normalizer output: its start is timezone-aware and its end is that
start advanced by the effective duration of the input args. -/
theorem finishNormalize_fields (tzOff : Int) (args : BookingArgs)
    (d : DTime) :
    ∃ d1 : DTime, d1.off ≠ none ∧
      finishNormalize tzOff args d =
        { summary := some (pySummary args), title := none,
          start_iso := some (.dt d1),
          end_iso := some (.dt (d1.addMin (pyDuration args))),
          duration_minutes := none } := by
  unfold finishNormalize
  by_cases h : d.off = none
  · exact ⟨{ d with off := some tzOff }, by simp, by simp [h]⟩
  · exact ⟨d, h, by simp [h]⟩

/-- Second application of the normalizer on an output-shaped record: with a
nonempty summary, an aware start, no title and no duration, it yields the
same record with end_iso recomputed from the default duration. -/
theorem normalize_second (now : DTime) (tzOff : Int) (li : Option String)
    (s : String) (hs : s ≠ "") (d1 : DTime) (hoff : d1.off ≠ none)
    (e : Option IsoField) :
    normalize_booking_args now tzOff
        { summary := some s, title := none, start_iso := some (.dt d1),
          end_iso := e, duration_minutes := none } li
      = some { summary := some s, title := none,
               start_iso := some (.dt d1),
               end_iso := some (.dt (d1.addMin DEFAULT_DURATION_MIN)),
               duration_minutes := none } := by
  have hred : normalize_booking_args now tzOff
      { summary := some s, title := none, start_iso := some (.dt d1),
        end_iso := e, duration_minutes := none } li
      = some (finishNormalize tzOff
          { summary := some s, title := none, start_iso := some (.dt d1),
            end_iso := e, duration_minutes := none } d1) := rfl
  rw [hred]
  have hsum : pySummary
      { summary := some s, title := none, start_iso := some (.dt d1),
        end_iso := e, duration_minutes := none } = s := by
    simp [pySummary, pyTruthyS, hs]
  simp only [finishNormalize, if_neg hoff, hsum]
  rfl

/-- C7 (corrected): the second application of normalize_booking_args always
reproduces the summary, start_iso, title and
duration_minutes, and it reproduces the whole output - end_iso included -
exactly when (iff) the effective duration of the original args is the
default 60; because the first application pops duration_minutes, a
non-default duration makes the second application recompute end_iso with
the default: see normalize_duration_not_idempotent. -/
theorem normalize_idempotent_amended :
    ∀ (now : DTime) (tzOff : Int) (li : Option String) (args o1 : BookingArgs),
      normalize_booking_args now tzOff args li = some o1 →
      ∃ o2, normalize_booking_args now tzOff o1 li = some o2 ∧
        o2.summary = o1.summary ∧ o2.start_iso = o1.start_iso ∧
        o2.title = o1.title ∧ o2.duration_minutes = o1.duration_minutes ∧
        (o2 = o1 ↔ pyDuration args = DEFAULT_DURATION_MIN) := by
  intro now tzOff li args o1 h
  have hform : ∃ d0, o1 = finishNormalize tzOff args d0 := by
    unfold normalize_booking_args at h
    cases hsi : args.start_iso with
    | some f =>
        cases f with
        | dt d =>
            rw [hsi] at h
            exact ⟨d, (Option.some.inj h).symm⟩
        | bad s =>
            rw [hsi] at h
            simp only at h
            split at h
            · exact absurd h (by simp)
            · exact ⟨tomorrow10 now, (Option.some.inj h).symm⟩
    | none =>
        rw [hsi] at h
        simp only at h
        split at h
        · exact absurd h (by simp)
        · exact ⟨tomorrow10 now, (Option.some.inj h).symm⟩
  obtain ⟨d0, ho1⟩ := hform
  obtain ⟨d1, hoff, hfin⟩ := finishNormalize_fields tzOff args d0
  rw [hfin] at ho1
  subst ho1
  have h2 := normalize_second now tzOff li (pySummary args)
    (pySummary_ne_empty args) d1 hoff
    (some (.dt (d1.addMin (pyDuration args))))
  refine ⟨_, h2, rfl, rfl, rfl, rfl, ?_, ?_⟩
  · intro heq
    have he := congrArg BookingArgs.end_iso heq
    simp only [Option.some.injEq, IsoField.dt.injEq, DTime.addMin,
      DTime.mk.injEq] at he
    omega
  · intro hd
    rw [hd]

/-- C7 counterexample: the concrete timezone-qualified request (summary
"Sync", start 10:00 UTC as minute 600 with offset 0, duration_minutes 30)
normalizes to end 10:30, but normalizing that output again yields end 11:00
(the popped duration falls back to the default 60), so the second
application recomputes end_iso differently. -/
theorem normalize_duration_not_idempotent :
    normalize_booking_args { wall := 0, off := some 0 } 0
        { summary := some "Sync", title := none,
          start_iso := some (.dt { wall := 600, off := some 0 }),
          end_iso := none, duration_minutes := some 30 } none
      = some { summary := some "Sync", title := none,
               start_iso := some (.dt { wall := 600, off := some 0 }),
               end_iso := some (.dt { wall := 630, off := some 0 }),
               duration_minutes := none } ∧
    normalize_booking_args { wall := 0, off := some 0 } 0
        { summary := some "Sync", title := none,
          start_iso := some (.dt { wall := 600, off := some 0 }),
          end_iso := some (.dt { wall := 630, off := some 0 }),
          duration_minutes := none } none
      = some { summary := some "Sync", title := none,
               start_iso := some (.dt { wall := 600, off := some 0 }),
               end_iso := some (.dt { wall := 660, off := some 0 }),
               duration_minutes := none } ∧
    (some (IsoField.dt { wall := 660, off := some 0 })
      ≠ some (IsoField.dt { wall := 630, off := some 0 })) := by
  exact ⟨by decide, by decide, by decide⟩

/-- Witness for the amended C7 theorem: a request without an explicit
duration (effective duration = default 60) re-normalizes to itself. -/
theorem normalize_idempotent_amended_witness :
    ∃ o2, normalize_booking_args { wall := 0, off := some 0 } 0
        { summary := some "Sync", title := none,
          start_iso := some (.dt { wall := 600, off := some 0 }),
          end_iso := some (.dt { wall := 660, off := some 0 }),
          duration_minutes := none } none = some o2 ∧
      o2.summary = some "Sync" ∧
      o2.start_iso = some (.dt { wall := 600, off := some 0 }) ∧
      o2 = { summary := some "Sync", title := none,
             start_iso := some (.dt { wall := 600, off := some 0 }),
             end_iso := some (.dt { wall := 660, off := some 0 }),
             duration_minutes := none } := by
  obtain ⟨o2, h1, h2, h3, _, _, h6⟩ :=
    normalize_idempotent_amended { wall := 0, off := some 0 } 0 none
      { summary := some "Sync", title := none,
        start_iso := some (.dt { wall := 600, off := some 0 }),
        end_iso := none, duration_minutes := none }
      { summary := some "Sync", title := none,
        start_iso := some (.dt { wall := 600, off := some 0 }),
        end_iso := some (.dt { wall := 660, off := some 0 }),
        duration_minutes := none }
      (by decide)
  exact ⟨o2, h1, by rw [h2], by rw [h3], h6.mpr (by decide)⟩

-- =========================================================================
-- Part 6: Booking Orchestrator (src/agent/agent_run.py, run_turn)
-- =========================================================================

/-- Tool name "email.verify_email_otp" as a character list. -/
def verifyName : List Char := "email.verify_email_otp".toList

/-- Tool name "email.send_email_otp" as a character list. -/
def sendName : List Char := "email.send_email_otp".toList

/-- Tool name "calendar.find_free_slot" as a character list. -/
def findName : List Char := "calendar.find_free_slot".toList

/-- Tool name "calendar.create_calendar_event" as a character list. -/
def createName : List Char := "calendar.create_calendar_event".toList

/-- Default CALENDAR_SERVER base address (env-overridable). -/
def CAL_BASE : String := "http://localhost:8080"

/-- Default EMAIL_SERVER base address (env-overridable). -/
def EMAIL_BASE : String := "http://localhost:8090"

/-- The session FSM states of SESSION["state"]. -/
inductive SState
  | idle
  | collecting_email
  | otp_sent
  | verified
deriving DecidableEq, Repr

/-- Chat roles of history entries. -/
inductive Role
  | system
  | user
  | assistant
  | tool
deriving DecidableEq, Repr

/-- The parsed JSON a backend call returns, as the orchestrator reads it:
the truthiness of result.get("ok") and result.get("verified"), and the
optional slot strings result.get("start") / result.get("end"). -/
structure ToolResult where
  ok : Bool := false
  verified : Bool := false
  slotStart : Option TStr := none
  slotEnd : Option TStr := none
deriving DecidableEq, Repr

/-- A reply returned by run_turn.  Each constructor stands for one of the
literal reply templates of the code, carrying its interpolated data; since
the templates are pairwise distinct strings, constructor distinctness models
string distinctness. -/
inductive Reply
  | needSendFirst
  | needEmail
  | verifyFirst
  | confirmSlot (s e : TStr)
  | noSlot
  | modelText (s : String)
deriving DecidableEq, Repr

/-- The content of a history message.  sysPrompt stands for the literal
SYSTEM_PROMPT string; resume/detailsHint for the two post-verification
system messages; ofReply for an assistant reply template; toolJson for a
json.dumps of a backend result (the assistant tool_calls metadata appended
alongside is not modelled - nothing in the orchestrator reads it back). -/
inductive MsgContent
  | sysPrompt
  | text (s : String)
  | ofReply (r : Reply)
  | resume (intent : String)
  | detailsHint
  | toolJson (r : ToolResult)
deriving DecidableEq, Repr

/-- One history entry. -/
structure Msg where
  role : Role
  content : MsgContent
deriving DecidableEq, Repr

/-- The mutable per-conversation session.  proposedStart/proposedEnd model
the optional SESSION["proposed_start_iso"] / SESSION["proposed_end_iso"]
keys (none = key absent). -/
structure Session where
  state : SState
  email : Option String
  verified : Bool
  history : List Msg
  proposedStart : Option TStr
  proposedEnd : Option TStr
deriving DecidableEq, Repr

/-- The initial SESSION value. -/
def SESSION : Session :=
  { state := .idle, email := none, verified := false, history := [],
    proposedStart := none, proposedEnd := none }

/-- A tool invocation requested by the proposer (name plus parsed JSON
arguments). -/
structure ToolCall where
  name : List Char
  args : CallArgs
deriving DecidableEq, Repr

/-- A tool invocation the orchestrator actually issued through call_tool:
what reached the Tool Gateway this turn. -/
structure GatewayCall where
  name : List Char
  args : CallArgs
  verified : Bool
deriving DecidableEq, Repr

/-- Append one message to the session history. -/
def pushMsg (sess : Session) (m : Msg) : Session :=
  { sess with history := sess.history ++ [m] }

/-- Append an assistant reply to the history. -/
def pushAssistant (sess : Session) (r : Reply) : Session :=
  pushMsg sess { role := .assistant, content := .ofReply r }

/-- The text of a message content, as the last-user-intent search reads it
(user messages are always plain text). -/
def contentText : MsgContent → String
  | .text s => s
  | _ => ""

/-- The reversed-history search for the most recent user message. -/
def lastUserText (h : List Msg) : Option String :=
  (h.reverse.find? (fun m => m.role == Role.user)).map
    (fun m => contentText m.content)

/-- parse_when applied to an optional text: parse_when(None) and
parse_when("") return None by the falsy-text guard; otherwise the regex and
clock logic of parse_when is the opaque parameter pw. -/
def parseWhenOpt (pw : String → Option DTime) : Option String → Option DTime
  | none => none
  | some t => if t = "" then none else pw t

/-- The availability keywords of run_turn. -/
def AVAIL_WORDS : List (List Char) :=
  ["free".toList, "availability".toList, "available".toList,
   "find slot".toList, "check slot".toList]

/-- any(w in (last_intent or "").lower() for w in AVAIL_WORDS). -/
def wants_availability (li : Option String) : Bool :=
  AVAIL_WORDS.any (fun w => containsL (lowerL (li.getD "").toList) w)

/-- make_window_for: the +-span/2 window around the desired start, as the
pair of isoformat strings placed into the arguments.  The duration parameter
is accepted but unused, exactly as in the source. -/
def make_window_for (d : DTime) (_duration_min : Int) (span_minutes : Int) :
    TStr × TStr :=
  (.iso (d.addMin (-(span_minutes.fdiv 2))), .iso (d.addMin (span_minutes.fdiv 2)))

/-- int(args.get("duration_minutes") or DEFAULT_DURATION_MIN) on tool-call
arguments. -/
def pyDurationC (args : CallArgs) : Int :=
  match args.duration_minutes with
  | some d => if d = 0 then DEFAULT_DURATION_MIN else d
  | none => DEFAULT_DURATION_MIN

/-- int(args.get("pad_minutes") or 0). -/
def pyPadC (args : CallArgs) : Int :=
  match args.pad_minutes with
  | some p => p
  | none => 0

/-- a or dflt for strings (None and "" falsy). -/
def pyOrStr (a : Option String) (dflt : String) : String :=
  if pyTruthyS a = true then a.getD "" else dflt

/-- The outcome of processing one requested invocation inside the per-turn
loop: halt = an immediate `return` out of run_turn with a reply; crash = a
raised exception propagating out of run_turn; next = the loop continues with
the updated session and a pending tool message.  calls records the gateway
requests issued during the step. -/
inductive StepOut
  | halt (sess : Session) (reply : Reply) (calls : List GatewayCall)
  | crash (sess : Session) (calls : List GatewayCall)
  | next (sess : Session) (toolMsg : Msg) (calls : List GatewayCall)
deriving DecidableEq, Repr

/-- Issue one POST through call_tool.  none before any request when the name
routing itself raises (dotless non-email name: IndexError in split); the
request - recorded in the trace - otherwise goes out, and the oracle
`results` supplies the k-th backend response, none modelling a raised
HTTP/network error. -/
def callGateway (results : Nat → Option ToolResult) (k : Nat)
    (name : List Char) (args : CallArgs) (v : Bool) :
    List GatewayCall × Option ToolResult :=
  match call_tool CAL_BASE EMAIL_BASE name args v with
  | none => ([], none)
  | some _ => ([{ name := name, args := args, verified := v }], results k)

/-- The FSM update after a successful tool execution: a send moves to
otp_sent and records the email argument (falling back to the session email
when the key is absent); a verify sets verified from ok && verified, moves
to verified or back to otp_sent and, on success, re-injects the last truthy
user intent plus the details reminder as system messages. -/
def updateAfterCall (name : List Char) (args : CallArgs) (result : ToolResult)
    (sess : Session) : Session :=
  if name = sendName then
    { sess with
      state := .otp_sent,
      email :=
        match args.email with
        | some e => some e
        | none => sess.email }
  else if name = verifyName then
    let ok := result.ok && result.verified
    let sess1 := { sess with
      verified := ok,
      state := if ok then SState.verified else SState.otp_sent }
    if ok then
      match lastUserText sess1.history with
      | some t =>
          if t = "" then sess1
          else pushMsg (pushMsg sess1 { role := .system, content := .resume t })
            { role := .system, content := .detailsHint }
      | none => sess1
    else sess1
  else sess

/-- Execute a (possibly rewritten) invocation and apply the FSM update. -/
def execAndUpdate (results : Nat → Option ToolResult) (k : Nat)
    (name : List Char) (args : CallArgs) (sess : Session) : StepOut :=
  match callGateway results k name args sess.verified with
  | (calls, none) => .crash sess calls
  | (calls, some result) =>
      .next (updateAfterCall name args result sess)
        { role := .tool, content := .toolJson result } calls

/-- The body of the per-invocation loop after the verify/send guards: the
calendar guard, then the calendar specialization (forced find_free_slot
path with rebuilt window arguments and an immediate confirm/no-slot reply;
or the create path preferring - and popping - the cached proposed slot),
then the common execution. -/
def stepGuarded (pw : String → Option DTime) (now : DTime)
    (results : Nat → Option ToolResult) (k : Nat) (name : List Char)
    (args : CallArgs) (sess : Session) : StepOut :=
  if startsWithL name calPre = true ∧ sess.verified = false then
    .halt (pushAssistant sess .verifyFirst) .verifyFirst []
  else if startsWithL name calPre = true then
    let last_intent := lastUserText sess.history
    let desired_dt := parseWhenOpt pw last_intent
    let wants := wants_availability last_intent
    if name = findName ∨ wants = true then
      let duration := pyDurationC args
      let desired := desired_dt.getD (tomorrow10 now)
      let w := make_window_for desired duration 240
      let args2 : CallArgs :=
        { duration_minutes := some duration,
          window_start_iso := some w.1, window_end_iso := some w.2,
          pad_minutes := some (pyPadC args) }
      match callGateway results k findName args2 sess.verified with
      | (calls, none) => .crash sess calls
      | (calls, some result) =>
          if pyTruthyT result.slotStart = true ∧ pyTruthyT result.slotEnd = true
          then
            let s := result.slotStart.getD (TStr.raw "")
            let e := result.slotEnd.getD (TStr.raw "")
            let sess2 := { sess with
              proposedStart := some s, proposedEnd := some e }
            .halt (pushAssistant sess2 (.confirmSlot s e)) (.confirmSlot s e)
              calls
          else
            .halt (pushAssistant sess .noSlot) .noSlot calls
    else if name = createName then
      let p :=
        if pyTruthyT sess.proposedStart = true ∧
            pyTruthyT sess.proposedEnd = true then
          (({ args with
              start_iso := sess.proposedStart,
              end_iso := sess.proposedEnd } : CallArgs),
           { sess with proposedStart := none, proposedEnd := none })
        else
          let desired := desired_dt.getD (tomorrow10 now)
          let duration := pyDurationC args
          (({ args with
              start_iso := some (.iso desired),
              end_iso := some (.iso (desired.addMin duration)) } : CallArgs),
           sess)
      let args3 : CallArgs :=
        { p.1 with
          summary := match p.1.summary with
            | some s => some s
            | none => some (pyOrStr p.1.title "Appointment"),
          title := none }
      execAndUpdate results k createName args3 p.2
    else
      execAndUpdate results k name args sess
  else
    execAndUpdate results k name args sess

/-- One requested invocation through the guard chain: a verify outside
otp_sent and a send without any email are refused locally (the send guard
first borrows the recorded session email when it has one); everything else
proceeds to the calendar logic and execution. -/
def stepCall (pw : String → Option DTime) (now : DTime)
    (results : Nat → Option ToolResult) (k : Nat) (tc : ToolCall)
    (sess : Session) : StepOut :=
  if tc.name = verifyName ∧ ¬ sess.state = SState.otp_sent then
    .halt (pushAssistant sess .needSendFirst) .needSendFirst []
  else if tc.name = sendName ∧ pyTruthyS tc.args.email = false then
    if pyTruthyS sess.email = true then
      stepGuarded pw now results k tc.name
        { tc.args with email := sess.email } sess
    else
      .halt (pushAssistant sess .needEmail) .needEmail []
  else
    stepGuarded pw now results k tc.name tc.args sess

/-- The outcome of the whole per-turn loop. -/
inductive LoopOut
  | early (sess : Session) (reply : Reply) (calls : List GatewayCall)
  | crashed (sess : Session) (calls : List GatewayCall)
  | done (sess : Session) (toolMsgs : List Msg) (calls : List GatewayCall)
deriving DecidableEq, Repr

/-- The for-loop over the requested invocations of the proposer, accumulating
tool messages and the gateway trace; a halt or crash ends the turn at once,
discarding the remaining invocations. -/
def runCalls (pw : String → Option DTime) (now : DTime)
    (results : Nat → Option ToolResult) :
    List ToolCall → Session → Nat → List Msg → List GatewayCall → LoopOut
  | [], sess, _, msgs, calls => .done sess msgs calls
  | tc :: rest, sess, k, msgs, calls =>
      match stepCall pw now results k tc sess with
      | .halt s r cs => .early s r (calls ++ cs)
      | .crash s cs => .crashed s (calls ++ cs)
      | .next s m cs =>
          runCalls pw now results rest s (k + cs.length) (msgs ++ [m])
            (calls ++ cs)

/-- The first proposer completion for a turn. -/
structure ProposerMsg where
  content : Option String
  toolCalls : List ToolCall
deriving DecidableEq, Repr

/-- Everything external a turn consumes: the user utterance, the first
completion, and the content of the second completion (used only when the loop
finishes without an early return). -/
structure TurnInput where
  userText : String
  prop : ProposerMsg
  finalContent : Option String
deriving DecidableEq, Repr

/-- What a turn produces: the committed session, the reply (none when an
exception aborted the turn) and the gateway trace. -/
structure TurnOut where
  sess : Session
  reply : Option Reply
  calls : List GatewayCall
deriving DecidableEq, Repr

/-- The start of run_turn before the proposer acts: record a detected email
(advancing idle to collecting_email), seed the system prompt into an empty
history, and append the user message. -/
def turnPreamble (extractEmail : String → Option String) (inp : TurnInput)
    (sess : Session) : Session :=
  let sess1 :=
    match extractEmail inp.userText with
    | some e =>
        let s1 := { sess with email := some e }
        if s1.state = SState.idle then { s1 with state := .collecting_email }
        else s1
    | none => sess
  let sess2 :=
    if sess1.history.isEmpty then
      pushMsg sess1 { role := .system, content := .sysPrompt }
    else sess1
  pushMsg sess2 { role := .user, content := .text inp.userText }

/-- run_turn from agent_run.py.  extractEmail models the EMAIL_RE search, pw
models parse_when on truthy text, now models datetime.now(TZINFO), and
results is the backend oracle indexed by the order of issued calls.  With no
requested invocations the proposer text is the reply; otherwise the loop
runs, and on normal completion the assistant message, the tool messages and
the reply of the second completion are appended. -/
def run_turn (extractEmail : String → Option String)
    (pw : String → Option DTime) (now : DTime)
    (results : Nat → Option ToolResult) (inp : TurnInput) (sess : Session) :
    TurnOut :=
  let sess0 := turnPreamble extractEmail inp sess
  match inp.prop.toolCalls with
  | [] =>
      let reply := Reply.modelText (pyOrStr inp.prop.content "(no response)")
      { sess := pushAssistant sess0 reply, reply := some reply, calls := [] }
  | tc :: rest =>
      match runCalls pw now results (tc :: rest) sess0 0 [] [] with
      | .early s r calls => { sess := s, reply := some r, calls := calls }
      | .crashed s calls => { sess := s, reply := none, calls := calls }
      | .done s toolMsgs calls =>
          let s1 := pushMsg s
            { role := .assistant, content := .text (inp.prop.content.getD "") }
          let s2 := { s1 with history := s1.history ++ toolMsgs }
          let final := Reply.modelText (pyOrStr inp.finalContent "(no response)")
          { sess := pushAssistant s2 final, reply := some final,
            calls := calls }

/-- The sessions reachable from the initial SESSION by any sequence of
turns, over every choice of user text, email extraction, time parsing,
clock, proposer output and backend behaviour. -/
inductive Reachable : Session → Prop
  | init : Reachable SESSION
  | step (extractEmail : String → Option String)
      (pw : String → Option DTime) (now : DTime)
      (results : Nat → Option ToolResult) (inp : TurnInput) (s : Session) :
      Reachable s →
      Reachable (run_turn extractEmail pw now results inp s).sess

/-- The direction of the session invariant that the code maintains: a
session in state verified has the verified flag set. -/
def SessInv (s : Session) : Prop :=
  s.state = SState.verified → s.verified = true

/-- SessInv of the session inside any step outcome. -/
def StepInv : StepOut → Prop
  | .halt s _ _ => SessInv s
  | .crash s _ => SessInv s
  | .next s _ _ => SessInv s

/-- SessInv of the session inside any loop outcome. -/
def LoopInv : LoopOut → Prop
  | .early s _ _ => SessInv s
  | .crashed s _ => SessInv s
  | .done s _ _ => SessInv s

/-- The FSM update preserves the invariant: a send lands in otp_sent, and a
verify sets verified and state together. -/
theorem sessInv_updateAfterCall (name : List Char) (args : CallArgs)
    (result : ToolResult) (sess : Session) (h : SessInv sess) :
    SessInv (updateAfterCall name args result sess) := by
  unfold updateAfterCall
  by_cases h1 : name = sendName
  · rw [if_pos h1]
    intro hc
    simp at hc
  · rw [if_neg h1]
    by_cases h2 : name = verifyName
    · rw [if_pos h2]
      dsimp only
      by_cases hok : (result.ok && result.verified) = true
      · rw [if_pos hok]
        intro _
        split
        · split
          · simp [hok]
          · simp [pushMsg, hok]
        · simp [hok]
      · rw [if_neg hok]
        intro hc
        simp [hok] at hc
    · rw [if_neg h2]
      exact h

/-- Execution plus update preserves the invariant in every outcome. -/
theorem stepInv_execAndUpdate (results : Nat → Option ToolResult) (k : Nat)
    (name : List Char) (args : CallArgs) (sess : Session) (h : SessInv sess) :
    StepInv (execAndUpdate results k name args sess) := by
  unfold execAndUpdate
  rcases hcg : callGateway results k name args sess.verified with ⟨calls, ores⟩
  cases ores with
  | none => exact h
  | some r => exact sessInv_updateAfterCall name args r sess h

/-- The calendar specialization preserves the invariant. -/
theorem stepInv_stepGuarded (pw : String → Option DTime) (now : DTime)
    (results : Nat → Option ToolResult) (k : Nat) (name : List Char)
    (args : CallArgs) (sess : Session) (h : SessInv sess) :
    StepInv (stepGuarded pw now results k name args sess) := by
  unfold stepGuarded
  split
  · exact h
  · split
    · dsimp only
      split
      · -- forced find_free_slot path
        split
        · exact h
        · split
          · exact h
          · exact h
      · split
        · -- create path: the popped (or untouched) session feeds execution
          apply stepInv_execAndUpdate
          split
          · exact h
          · exact h
        · exact stepInv_execAndUpdate _ _ _ _ _ h
    · exact stepInv_execAndUpdate _ _ _ _ _ h

/-- The guard chain preserves the invariant. -/
theorem stepInv_stepCall (pw : String → Option DTime) (now : DTime)
    (results : Nat → Option ToolResult) (k : Nat) (tc : ToolCall)
    (sess : Session) (h : SessInv sess) :
    StepInv (stepCall pw now results k tc sess) := by
  unfold stepCall
  split
  · exact h
  · split
    · split
      · exact stepInv_stepGuarded _ _ _ _ _ _ _ h
      · exact h
    · exact stepInv_stepGuarded _ _ _ _ _ _ _ h

/-- The per-turn loop preserves the invariant. -/
theorem loopInv_runCalls (pw : String → Option DTime) (now : DTime)
    (results : Nat → Option ToolResult) :
    ∀ (tcs : List ToolCall) (sess : Session) (k : Nat) (msgs : List Msg)
      (calls : List GatewayCall), SessInv sess →
      LoopInv (runCalls pw now results tcs sess k msgs calls) := by
  intro tcs
  induction tcs with
  | nil => intro sess k msgs calls h; exact h
  | cons tc rest ih =>
      intro sess k msgs calls h
      unfold runCalls
      have hstep := stepInv_stepCall pw now results k tc sess h
      cases hsc : stepCall pw now results k tc sess with
      | halt s r cs => rw [hsc] at hstep; exact hstep
      | crash s cs => rw [hsc] at hstep; exact hstep
      | next s m cs => rw [hsc] at hstep; exact ih s _ _ _ hstep

/-- The turn preamble preserves the invariant (it can only move idle to
collecting_email or touch email/history). -/
theorem sessInv_turnPreamble (extractEmail : String → Option String)
    (inp : TurnInput) (sess : Session) (h : SessInv sess) :
    SessInv (turnPreamble extractEmail inp sess) := by
  unfold turnPreamble
  cases hx : extractEmail inp.userText with
  | none =>
      dsimp only
      split
      · exact h
      · exact h
  | some v =>
      dsimp only
      split
      · split
        · intro hc; simp [pushMsg] at hc
        · intro hc; simp [pushMsg] at hc
      · split
        · intro hc; exact h hc
        · intro hc; exact h hc

/-- A whole turn preserves the invariant. -/
theorem sessInv_run_turn (extractEmail : String → Option String)
    (pw : String → Option DTime) (now : DTime)
    (results : Nat → Option ToolResult) (inp : TurnInput) (sess : Session)
    (h : SessInv sess) :
    SessInv (run_turn extractEmail pw now results inp sess).sess := by
  unfold run_turn
  have h0 := sessInv_turnPreamble extractEmail inp sess h
  cases htc : inp.prop.toolCalls with
  | nil => exact h0
  | cons tc rest =>
      dsimp only
      have hl := loopInv_runCalls pw now results (tc :: rest)
        (turnPreamble extractEmail inp sess) 0 [] [] h0
      cases hrc : runCalls pw now results (tc :: rest)
          (turnPreamble extractEmail inp sess) 0 [] [] with
      | early s r calls => rw [hrc] at hl; exact hl
      | crashed s calls => rw [hrc] at hl; exact hl
      | done s msgs calls => rw [hrc] at hl; exact hl

/-- C3 (corrected): in every session reachable from the initial session,
state verified implies the verified flag - the direction of the claimed
invariant that actually holds.  The converse direction (verified flag
implies state verified) is refuted by session_invariant_violated: a
send_email_otp executed after a successful verification moves the state back
to otp_sent while leaving verified true. -/
theorem session_invariant_amended :
    ∀ s : Session, Reachable s →
      (s.state = SState.verified → s.verified = true) := by
  intro s h
  induction h with
  | init => intro hc; simp [SESSION] at hc
  | step extractEmail pw now results inp s hs ih =>
      exact sessInv_run_turn extractEmail pw now results inp s ih

/-- Backend oracle answering every call with ok and verified true. -/
def oracleTrue : Nat → Option ToolResult :=
  fun _ => some { ok := true, verified := true, slotStart := none,
                  slotEnd := none }

/-- Email extraction finding nothing. -/
def noEmailFn : String → Option String := fun _ => none

/-- Time parsing finding nothing. -/
def noParseFn : String → Option DTime := fun _ => none

/-- A concrete clock reading. -/
def nowDT : DTime := { wall := 0, off := some 0 }

/-- Turn whose proposer requests a send_email_otp with an explicit email. -/
def sendTurn : TurnInput :=
  { userText := "book me an appointment",
    prop :=
      { content := none,
        toolCalls :=
          [{ name := sendName,
             args := { email := some "user@example.com" } }] },
    finalContent := some "code sent" }

/-- Turn whose proposer requests the matching verify_email_otp. -/
def verifyTurn : TurnInput :=
  { userText := "123456",
    prop :=
      { content := none,
        toolCalls :=
          [{ name := verifyName,
             args := { email := some "user@example.com",
                       code := some "123456" } }] },
    finalContent := some "you are verified" }

/-- Turn whose proposer requests another send_email_otp after verification. -/
def resendTurn : TurnInput :=
  { userText := "send a new code",
    prop :=
      { content := none,
        toolCalls :=
          [{ name := sendName,
             args := { email := some "user@example.com" } }] },
    finalContent := some "code sent again" }

/-- The session after a successful send turn and verify turn. -/
def sessionAfterVerify : Session :=
  (run_turn noEmailFn noParseFn nowDT oracleTrue verifyTurn
    (run_turn noEmailFn noParseFn nowDT oracleTrue sendTurn SESSION).sess).sess

/-- The session after a further send turn. -/
def sessionAfterResend : Session :=
  (run_turn noEmailFn noParseFn nowDT oracleTrue resendTurn
    sessionAfterVerify).sess

/-- C3 counterexample: the session reached by send, successful verify, then
another send is reachable, has verified = true, yet its state is otp_sent -
so "verified == true iff state == verified" fails in a reachable state (the
re-send never resets the verified flag). -/
theorem session_invariant_violated :
    Reachable sessionAfterResend ∧
    sessionAfterResend.verified = true ∧
    ¬ sessionAfterResend.state = SState.verified := by
  refine ⟨?_, rfl, ?_⟩
  · exact Reachable.step noEmailFn noParseFn nowDT oracleTrue resendTurn _
      (Reachable.step noEmailFn noParseFn nowDT oracleTrue verifyTurn _
        (Reachable.step noEmailFn noParseFn nowDT oracleTrue sendTurn _
          Reachable.init))
  · intro h
    rw [show sessionAfterResend.state = SState.otp_sent from rfl] at h
    exact absurd h (by decide)

/-- Witness for the amended C3 theorem: the session after the verify turn is
reachable and in state verified, and the theorem yields verified = true. -/
theorem session_invariant_amended_witness :
    sessionAfterVerify.verified = true :=
  session_invariant_amended sessionAfterVerify
    (Reachable.step noEmailFn noParseFn nowDT oracleTrue verifyTurn _
      (Reachable.step noEmailFn noParseFn nowDT oracleTrue sendTurn _
        Reachable.init))
    rfl

/-- A name with the calendar namespace is not one of the email tool names. -/
theorem cal_name_ne_email (n : List Char)
    (h : startsWithL n calPre = true) : n ≠ verifyName ∧ n ≠ sendName := by
  constructor <;> intro he <;> rw [he] at h <;> exact absurd h (by decide)

/-- For a calendar-namespaced invocation the verify/send guards fall
through to the calendar logic. -/
theorem stepCall_to_guarded (pw : String → Option DTime) (now : DTime)
    (results : Nat → Option ToolResult) (k : Nat) (tc : ToolCall)
    (sess : Session) (h : startsWithL tc.name calPre = true) :
    stepCall pw now results k tc sess
      = stepGuarded pw now results k tc.name tc.args sess := by
  obtain ⟨hnv, hns⟩ := cal_name_ne_email tc.name h
  unfold stepCall
  rw [if_neg (fun hc => hnv hc.1), if_neg (fun hc => hns hc.1)]

/-- The turn preamble never changes the verified flag. -/
theorem turnPreamble_verified (extractEmail : String → Option String)
    (inp : TurnInput) (sess : Session) :
    (turnPreamble extractEmail inp sess).verified = sess.verified := by
  unfold turnPreamble
  cases hx : extractEmail inp.userText with
  | none =>
      dsimp only
      split <;> rfl
  | some v =>
      dsimp only
      split
      · split <;> rfl
      · split <;> rfl

/-- C1 (confirmed): whenever the loop reaches a calendar.* invocation while
the verified flag is false, that step is refused locally with the
verification-request reply and issues no gateway call; the loop returns that
reply at once, discarding every remaining invocation of the turn; and when
such an invocation comes first in the turn, the whole turn returns the
verification-request reply with an empty gateway trace. -/
theorem calendar_guard_refusal :
    (∀ (pw : String → Option DTime) (now : DTime)
        (results : Nat → Option ToolResult) (k : Nat) (tc : ToolCall)
        (sess : Session),
      startsWithL tc.name calPre = true → sess.verified = false →
      stepCall pw now results k tc sess
        = StepOut.halt (pushAssistant sess .verifyFirst) .verifyFirst []) ∧
    (∀ (pw : String → Option DTime) (now : DTime)
        (results : Nat → Option ToolResult) (k : Nat) (tc : ToolCall)
        (rest : List ToolCall) (sess : Session) (msgs : List Msg)
        (calls : List GatewayCall),
      startsWithL tc.name calPre = true → sess.verified = false →
      runCalls pw now results (tc :: rest) sess k msgs calls
        = LoopOut.early (pushAssistant sess .verifyFirst) .verifyFirst
            calls) ∧
    (∀ (extractEmail : String → Option String) (pw : String → Option DTime)
        (now : DTime) (results : Nat → Option ToolResult) (inp : TurnInput)
        (sess : Session) (tc : ToolCall) (rest : List ToolCall),
      inp.prop.toolCalls = tc :: rest →
      startsWithL tc.name calPre = true → sess.verified = false →
      (run_turn extractEmail pw now results inp sess).reply
          = some Reply.verifyFirst ∧
      (run_turn extractEmail pw now results inp sess).calls = []) := by
  have hstep : ∀ (pw : String → Option DTime) (now : DTime)
      (results : Nat → Option ToolResult) (k : Nat) (tc : ToolCall)
      (sess : Session),
      startsWithL tc.name calPre = true → sess.verified = false →
      stepCall pw now results k tc sess
        = StepOut.halt (pushAssistant sess .verifyFirst) .verifyFirst [] := by
    intro pw now results k tc sess hcal hver
    rw [stepCall_to_guarded pw now results k tc sess hcal]
    unfold stepGuarded
    rw [if_pos ⟨hcal, hver⟩]
  have hloop : ∀ (pw : String → Option DTime) (now : DTime)
      (results : Nat → Option ToolResult) (k : Nat) (tc : ToolCall)
      (rest : List ToolCall) (sess : Session) (msgs : List Msg)
      (calls : List GatewayCall),
      startsWithL tc.name calPre = true → sess.verified = false →
      runCalls pw now results (tc :: rest) sess k msgs calls
        = LoopOut.early (pushAssistant sess .verifyFirst) .verifyFirst
            calls := by
    intro pw now results k tc rest sess msgs calls hcal hver
    unfold runCalls
    rw [hstep pw now results k tc sess hcal hver]
    simp only [List.append_nil]
  refine ⟨hstep, hloop, ?_⟩
  intro extractEmail pw now results inp sess tc rest htc hcal hver
  have hver0 : (turnPreamble extractEmail inp sess).verified = false := by
    rw [turnPreamble_verified]; exact hver
  unfold run_turn
  rw [htc]
  dsimp only
  rw [hloop pw now results 0 tc rest _ [] [] hcal hver0]
  exact ⟨rfl, rfl⟩

/-- Witness for C1: with the initial (unverified) session, a requested
calendar.create_calendar_event is refused by the guard. -/
theorem calendar_guard_refusal_witness :
    startsWithL createName calPre = true ∧ SESSION.verified = false ∧
    stepCall noParseFn nowDT oracleTrue 0
        { name := createName, args := {} } SESSION
      = StepOut.halt (pushAssistant SESSION .verifyFirst) .verifyFirst [] :=
  ⟨by decide, rfl,
    calendar_guard_refusal.1 noParseFn nowDT oracleTrue 0
      { name := createName, args := {} } SESSION (by decide) rfl⟩

/-- The FSM update is the identity for names other than the two email
tools. -/
theorem updateAfterCall_other (name : List Char) (args : CallArgs)
    (r : ToolResult) (sess : Session) (h1 : ¬ name = sendName)
    (h2 : ¬ name = verifyName) :
    updateAfterCall name args r sess = sess := by
  unfold updateAfterCall
  rw [if_neg h1, if_neg h2]

/-- The gateway request issued for calendar.find_free_slot. -/
theorem callGateway_find (results : Nat → Option ToolResult) (k : Nat)
    (args : CallArgs) (v : Bool) :
    callGateway results k findName args v
      = ([{ name := findName, args := args, verified := v }],
         results k) := rfl

/-- The gateway request issued for calendar.create_calendar_event. -/
theorem callGateway_create (results : Nat → Option ToolResult) (k : Nat)
    (args : CallArgs) (v : Bool) :
    callGateway results k createName args v
      = ([{ name := createName, args := args, verified := v }],
         results k) := rfl

/-- C8 (confirmed): (1) a successful find_free_slot caches the returned slot
pair in the session - overwriting whatever was cached - and ends the turn
with the booking confirmation question; (2) a create_calendar_event with a
truthy cached pair consumes it: the issued gateway call carries exactly the
cached values and the resulting session holds neither; (3) a
create_calendar_event without a truthy cached pair cannot reuse a stale
slot: the issued call carries freshly built isoformat times and the session
is unchanged. -/
theorem pending_slot_lifecycle :
    (∀ (pw : String → Option DTime) (now : DTime)
        (results : Nat → Option ToolResult) (k : Nat) (tc : ToolCall)
        (sess : Session) (r : ToolResult) (s e : TStr),
      tc.name = findName → sess.verified = true → results k = some r →
      r.slotStart = some s → r.slotEnd = some e →
      TStr.pyTruthy s = true → TStr.pyTruthy e = true →
      ∃ args2 : CallArgs,
        stepCall pw now results k tc sess
          = StepOut.halt
              (pushAssistant
                { sess with proposedStart := some s, proposedEnd := some e }
                (.confirmSlot s e))
              (.confirmSlot s e)
              [{ name := findName, args := args2, verified := true }]) ∧
    (∀ (pw : String → Option DTime) (now : DTime)
        (results : Nat → Option ToolResult) (k : Nat) (tc : ToolCall)
        (sess : Session) (r : ToolResult),
      tc.name = createName → sess.verified = true →
      wants_availability (lastUserText sess.history) = false →
      pyTruthyT sess.proposedStart = true →
      pyTruthyT sess.proposedEnd = true →
      results k = some r →
      ∃ args3 : CallArgs,
        args3.start_iso = sess.proposedStart ∧
        args3.end_iso = sess.proposedEnd ∧
        stepCall pw now results k tc sess
          = StepOut.next
              { sess with proposedStart := none, proposedEnd := none }
              { role := .tool, content := .toolJson r }
              [{ name := createName, args := args3, verified := true }]) ∧
    (∀ (pw : String → Option DTime) (now : DTime)
        (results : Nat → Option ToolResult) (k : Nat) (tc : ToolCall)
        (sess : Session) (r : ToolResult),
      tc.name = createName → sess.verified = true →
      wants_availability (lastUserText sess.history) = false →
      ¬ (pyTruthyT sess.proposedStart = true ∧
         pyTruthyT sess.proposedEnd = true) →
      results k = some r →
      ∃ (args3 : CallArgs) (d : DTime) (dur : Int),
        args3.start_iso = some (.iso d) ∧
        args3.end_iso = some (.iso (d.addMin dur)) ∧
        stepCall pw now results k tc sess
          = StepOut.next sess { role := .tool, content := .toolJson r }
              [{ name := createName, args := args3,
                 verified := true }]) := by
  refine ⟨?_, ?_, ?_⟩
  · -- (1) successful find caches the slot
    intro pw now results k tc sess r s e htc hver hr hss hse hts hte
    obtain ⟨nm, args⟩ := tc
    dsimp only at htc
    subst htc
    rw [stepCall_to_guarded pw now results k
      { name := findName, args := args } sess
      (by show startsWithL findName calPre = true; decide)]
    unfold stepGuarded
    dsimp only
    rw [hver]
    rw [if_neg (fun hc => absurd hc.2 (by decide))]
    rw [if_pos (by decide : startsWithL findName calPre = true)]
    rw [if_pos (Or.inl rfl)]
    rw [callGateway_find, hr]
    dsimp only
    rw [hss, hse]
    rw [if_pos ⟨hts, hte⟩]
    exact ⟨_, rfl⟩
  · -- (2) create consumes the cached slot
    intro pw now results k tc sess r htc hver hwants hp1 hp2 hr
    obtain ⟨nm, args⟩ := tc
    dsimp only at htc
    subst htc
    rw [stepCall_to_guarded pw now results k
      { name := createName, args := args } sess
      (by show startsWithL createName calPre = true; decide)]
    unfold stepGuarded
    dsimp only
    rw [hver]
    rw [if_neg (fun hc => absurd hc.2 (by decide))]
    rw [if_pos (by decide : startsWithL createName calPre = true)]
    rw [if_neg (fun hc => hc.elim (fun h => absurd h (by decide))
      (fun h => by rw [hwants] at h; exact absurd h (by decide)))]
    rw [if_pos rfl]
    rw [if_pos ⟨hp1, hp2⟩]
    dsimp only
    unfold execAndUpdate
    rw [callGateway_create, hr]
    dsimp only
    rw [updateAfterCall_other createName _ r _ (by decide) (by decide)]
    exact ⟨_, rfl, rfl, rfl⟩
  · -- (3) create without a cached slot builds fresh times
    intro pw now results k tc sess r htc hver hwants hnp hr
    obtain ⟨nm, args⟩ := tc
    dsimp only at htc
    subst htc
    rw [stepCall_to_guarded pw now results k
      { name := createName, args := args } sess
      (by show startsWithL createName calPre = true; decide)]
    unfold stepGuarded
    dsimp only
    rw [hver]
    rw [if_neg (fun hc => absurd hc.2 (by decide))]
    rw [if_pos (by decide : startsWithL createName calPre = true)]
    rw [if_neg (fun hc => hc.elim (fun h => absurd h (by decide))
      (fun h => by rw [hwants] at h; exact absurd h (by decide)))]
    rw [if_pos rfl]
    rw [if_neg hnp]
    dsimp only
    unfold execAndUpdate
    rw [callGateway_create, hr]
    dsimp only
    rw [updateAfterCall_other createName _ r _ (by decide) (by decide)]
    rw [hver]
    exact ⟨_, _, _, rfl, rfl, rfl⟩

/-- Concrete session holding a cached pending slot, as left by a successful
availability search in a verified session. -/
def cachedSess : Session :=
  { state := .verified, email := some "user@example.com", verified := true,
    history := [], proposedStart := some (.raw "2030-01-02T10:00:00+00:00"),
    proposedEnd := some (.raw "2030-01-02T11:00:00+00:00") }

/-- Witness for C8: at the concrete cached session, a requested
create_calendar_event consumes the cached pair - the issued call carries
the cached values and the resulting session holds neither. -/
theorem pending_slot_lifecycle_witness :
    ∃ args3 : CallArgs,
      args3.start_iso = cachedSess.proposedStart ∧
      args3.end_iso = cachedSess.proposedEnd ∧
      stepCall noParseFn nowDT oracleTrue 0
          { name := createName, args := {} } cachedSess
        = StepOut.next
            { cachedSess with proposedStart := none, proposedEnd := none }
            { role := .tool,
              content := .toolJson
                { ok := true, verified := true,
                  slotStart := none, slotEnd := none } }
            [{ name := createName, args := args3, verified := true }] :=
  pending_slot_lifecycle.2.1 noParseFn nowDT oracleTrue 0
    { name := createName, args := {} } cachedSess
    { ok := true, verified := true, slotStart := none, slotEnd := none }
    rfl rfl (by decide) (by decide) (by decide) rfl

end AgentBooking
